import Mathlib

/-!
Shallow embedding of `final_script_for_clone_and_push_v2.py`, a script that
migrates one Git repository from an Azure DevOps (TFS) collection to GitHub.
The effectful parts (HTTP status codes, filesystem existence, subprocess exit
codes, `time.sleep`, `os.chdir`, the checkpoint file on disk) are modelled by
an explicit environment record and an event trace; the JSON checkpoint
document is modelled by an association list that mirrors Python dict
semantics (insertion order preserved, keys unique).
-/

namespace CloneAndPush

/-- Events observable during a run: subprocess invocations, backoff sleeps,
working-directory changes, checkpoint-file writes, and error-level log lines. -/
inductive Event where
  | run (cmd : List String)
  | sleep (t : Nat)
  | chdir (dir : String)
  | writeLedger (collection project repo : String)
  | logError (msg : String)
  deriving DecidableEq, Repr

/-- The `specific_branches` configuration value: either the string `"all"`
or an explicit list of branch names. -/
inductive BranchSel where
  | all
  | branches (bs : List String)
  deriving DecidableEq, Repr

/-- The configuration document `config.json` (required keys; the optional
`specific_branches` key is `none` when absent). -/
structure Config where
  azure_devops_organization : String
  azure_devops_project : String
  azure_devops_pat_token : String
  tfs_source_repo : String
  github_target_repo : String
  tfs_url : String
  github_token : String
  github_organization : String
  specific_branches : Option BranchSel

/-- `config.get("specific_branches", "all")` — defaults to `"all"` when the
key is absent. -/
def branchSelector (config : Config) : BranchSel :=
  config.specific_branches.getD BranchSel.all

/-- The JSON checkpoint document: `collection -> project -> list of repo
names`, as an insertion-ordered association list (Python dict semantics). -/
abbrev Checkpoint := List (String × List (String × List String))

/-- Dict lookup on an association list (Python `d[k]` / `k in d`). -/
def alGet {α : Type} : List (String × α) → String → Option α
  | [], _ => none
  | (k', v) :: rest, k => if k' = k then some v else alGet rest k

/-- Dict update on an association list (Python `d[k] = v`): replaces in place
if the key is present, otherwise appends at the end (insertion order). -/
def alSet {α : Type} : List (String × α) → String → α → List (String × α)
  | [], k, v => [(k, v)]
  | (k', v') :: rest, k, v =>
      if k' = k then (k, v) :: rest else (k', v') :: alSet rest k v

/-- Python `x in l` for a list of strings. -/
def listHas : List String → String → Bool
  | [], _ => false
  | x :: rest, y => if x = y then true else listHas rest y

/-- `checkpoint[collection]`, defaulting to the empty dict when absent. -/
def projectsOf (cp : Checkpoint) (c : String) : List (String × List String) :=
  (alGet cp c).getD []

/-- `checkpoint[collection][project]`, defaulting to the empty list. -/
def reposOf (cp : Checkpoint) (c p : String) : List String :=
  (alGet (projectsOf cp c) p).getD []

/-- The orchestrator's skip test, line 149:
`collection_name in checkpoint and azure_project in checkpoint[collection_name]
and repo_name in checkpoint[collection_name][azure_project]`. -/
def skipCheck (cp : Checkpoint) (c p r : String) : Bool :=
  (alGet cp c).isSome && (alGet (projectsOf cp c) p).isSome
    && listHas (reposOf cp c p) r

/-- `save_checkpoint` (lines 44–61): read the file (empty dict when absent),
insert missing collection/project levels, and if the repo name is not yet
recorded, append it and rewrite the file. Returns the in-memory document and
whether a disk write happened. `none` models a missing checkpoint file. -/
def save_checkpoint (file : Option Checkpoint) (collection_name project_name repo_name : String) :
    Checkpoint × Bool :=
  let checkpoint := file.getD []
  let checkpoint :=
    if (alGet checkpoint collection_name).isSome then checkpoint
    else alSet checkpoint collection_name []
  let projs := projectsOf checkpoint collection_name
  let projs :=
    if (alGet projs project_name).isSome then projs
    else alSet projs project_name []
  let repos := (alGet projs project_name).getD []
  if listHas repos repo_name then
    (checkpoint, false)
  else
    (alSet checkpoint collection_name (alSet projs project_name (repos ++ [repo_name])), true)

/-- The checkpoint file on disk after `save_checkpoint`: overwritten with the
full document when a write happened, untouched otherwise. -/
def save_checkpoint_disk (file : Option Checkpoint) (c p r : String) : Option Checkpoint :=
  let res := save_checkpoint file c p r
  if res.2 then some res.1 else file

/-- `load_checkpoint` (lines 63–69): create the file with an empty JSON
object if absent, then read it. Returns the loaded document and the file
state afterwards. -/
def load_checkpoint (file : Option Checkpoint) : Checkpoint × Option Checkpoint :=
  match file with
  | none => ([], some [])
  | some cp => (cp, some cp)

/-- One retry loop iteration list for `retry_subprocess` (lines 71–80).
`behav i` tells whether the subprocess exits zero on attempt `i`. Each failed
attempt logs a warning and sleeps `2 ^ attempt`; the first success returns at
once. Returns whether the loop returned (vs. fell through to `raise`) and
the event trace. -/
def retryAux (cmd : List String) (behav : Nat → Bool) : List Nat → Bool × List Event
  | [] => (false, [])
  | i :: rest =>
      if behav i then (true, [Event.run cmd])
      else
        let res := retryAux cmd behav rest
        (res.1, Event.run cmd :: Event.sleep (2 ^ i) :: res.2)

/-- `retry_subprocess(command, retries=3)`: run the loop over attempts
`0, …, retries-1`; if no attempt succeeded, raise
`"Command failed after {retries} retries: {command}"`. -/
def retry_subprocess (cmd : List String) (behav : Nat → Bool) (retries : Nat := 3) :
    Except String Unit × List Event :=
  let res := retryAux cmd behav (List.range retries)
  if res.1 then (Except.ok (), res.2)
  else
    (Except.error ("Command failed after " ++ toString retries ++ " retries: " ++ toString cmd),
      res.2)

/-- The fetch command issued for one branch (line 86). -/
def fetchCmd (branch : String) : List String :=
  ["git", "fetch", "origin", branch]

/-- The push command issued for one branch (line 87). -/
def pushBranchCmd (github_repo_url branch : String) : List String :=
  ["git", "push", github_repo_url,
    "refs/remotes/origin/" ++ branch ++ ":refs/heads/" ++ branch]

/-- `migrate_specific_branches` (lines 82–87): for each branch in order,
fetch it from origin then push it to the destination; an exception from
either command propagates out of the loop, aborting the remaining branches. -/
def migrate_specific_branches (repo_dir github_repo_url : String) (branches : List String)
    (behav : List String → Nat → Bool) : Except String Unit × List Event :=
  match branches with
  | [] => (Except.ok (), [])
  | b :: rest =>
      let f := retry_subprocess (fetchCmd b) (behav (fetchCmd b))
      match f.1 with
      | Except.error e => (Except.error e, f.2)
      | Except.ok _ =>
          let pcmd := pushBranchCmd github_repo_url b
          let pr := retry_subprocess pcmd (behav pcmd)
          match pr.1 with
          | Except.error e => (Except.error e, f.2 ++ pr.2)
          | Except.ok _ =>
              let rest' := migrate_specific_branches repo_dir github_repo_url rest behav
              (rest'.1, f.2 ++ pr.2 ++ rest'.2)

/-- `check_github_repo_exists` (lines 96–102): a GET whose observed status
code is `ghStatus`; exists iff the status is 200 (any other status is
"does not exist", not an error). -/
def check_github_repo_exists (github_org repo_name github_token : String) (ghStatus : Nat) : Bool :=
  ghStatus == 200

/-- The world outside the script for one run: the repository-listing response,
the GitHub existence-check status, whether the local clone directory already
exists, the exit behaviour of each subprocess command, and URL quoting. -/
structure Env where
  listStatus : Nat
  repositories : List String
  ghStatus : Nat
  repoDirExists : Bool
  behav : List String → Nat → Bool
  quote : String → String

/-- `os.path.join(a, b)`. -/
def pjoin (a b : String) : String := a ++ "/" ++ b

/-- `base_dir = os.path.join(os.getcwd(), "tfs_repo_migration")` (line 117). -/
def baseDirOf (cwd0 : String) : String := pjoin cwd0 "tfs_repo_migration"

/-- `repo_base_dir` (line 118). -/
def repoBaseDirOf (cwd0 : String) : String := pjoin (baseDirOf cwd0) "tfs_git_repo"

/-- `project_dir` from `create_directory_structure` (lines 89–94, 127). -/
def projectDirOf (config : Config) (cwd0 : String) : String :=
  pjoin (pjoin (repoBaseDirOf cwd0) config.azure_devops_organization) config.azure_devops_project

/-- `repo_dir = os.path.join(project_dir, repo_name)` (line 158). -/
def repoDirOf (config : Config) (cwd0 : String) : String :=
  pjoin (projectDirOf config cwd0) config.tfs_source_repo

/-- `azure_repo_url` (line 159). -/
def azureRepoUrlOf (config : Config) (env : Env) : String :=
  config.tfs_url ++ "/" ++ config.azure_devops_organization ++ "/"
    ++ config.azure_devops_project ++ "/_git/" ++ env.quote config.tfs_source_repo

/-- `github_repo_url` (line 172). -/
def githubRepoUrlOf (config : Config) (env : Env) : String :=
  "https://github.com/" ++ config.github_organization ++ "/"
    ++ env.quote config.github_target_repo ++ ".git"

/-- Mirror-clone command (line 165). -/
def cloneMirrorCmd (url dir : String) : List String := ["git", "clone", "--mirror", url, dir]

/-- Default-branch clone command (line 168). -/
def cloneDefaultCmd (url dir : String) : List String := ["git", "clone", url, dir]

/-- Mirror-push command (line 176). -/
def pushMirrorCmd (url : String) : List String := ["git", "push", "--mirror", url]

/-- The clone phase of the `try` block (lines 162–168): nothing when the
local clone directory already exists, otherwise a mirror clone when the
selector is `"all"` and a default-branch clone otherwise. -/
def cloneStep (env : Env) (specific_branches : BranchSel) (azure_repo_url repo_dir : String) :
    Except String Unit × List Event :=
  if env.repoDirExists then (Except.ok (), [])
  else
    match specific_branches with
    | BranchSel.all =>
        retry_subprocess (cloneMirrorCmd azure_repo_url repo_dir)
          (env.behav (cloneMirrorCmd azure_repo_url repo_dir))
    | BranchSel.branches _ =>
        retry_subprocess (cloneDefaultCmd azure_repo_url repo_dir)
          (env.behav (cloneDefaultCmd azure_repo_url repo_dir))

/-- The push phase of the `try` block (lines 174–179): mirror push when the
selector is `"all"`, the per-branch loop otherwise. -/
def pushStep (env : Env) (specific_branches : BranchSel) (repo_dir github_repo_url : String) :
    Except String Unit × List Event :=
  match specific_branches with
  | BranchSel.all =>
      retry_subprocess (pushMirrorCmd github_repo_url)
        (env.behav (pushMirrorCmd github_repo_url))
  | BranchSel.branches bs =>
      migrate_specific_branches repo_dir github_repo_url bs env.behav

/-- The `try` block of `clone_and_push_repositories` (lines 161–179): clone
if the local directory is absent, then — unless the run is clone-only —
`os.chdir(repo_dir)` and push. Returns the raised-or-ok outcome and the
event trace of the block. -/
def tryCloneAndPush (env : Env) (specific_branches : BranchSel) (only_clone_repos : Bool)
    (azure_repo_url repo_dir github_repo_url : String) : Except String Unit × List Event :=
  let cstep := cloneStep env specific_branches azure_repo_url repo_dir
  match cstep.1 with
  | Except.error e => (Except.error e, cstep.2)
  | Except.ok _ =>
      if only_clone_repos then (Except.ok (), cstep.2)
      else
        let pstep := pushStep env specific_branches repo_dir github_repo_url
        (pstep.1, cstep.2 ++ Event.chdir repo_dir :: pstep.2)

/-- The outcome of one orchestrator run: what the function returned or
raised, the checkpoint file afterwards, the final working directory, and the
observable event trace. -/
structure RunResult where
  result : Except String Unit
  disk : Option Checkpoint
  cwd : String
  trace : List Event
  deriving Repr

/-- `clone_and_push_repositories` (lines 104–187): list the source project's
repositories (non-200 raises; a missing source repo raises), load the
checkpoint, skip if already recorded, stop if the GitHub target is absent,
and otherwise run the clone/push `try` block; any exception there is caught
and logged, and the `finally` clause writes the checkpoint and
`os.chdir(base_dir)` on every exit path of the block. -/
def clone_and_push_repositories (config : Config) (only_clone_repos : Bool) (env : Env)
    (disk : Option Checkpoint) (cwd0 : String) : RunResult :=
  let collection_name := config.azure_devops_organization
  let azure_project := config.azure_devops_project
  let tfs_repo := config.tfs_source_repo
  let git_repo := config.github_target_repo
  if env.listStatus ≠ 200 then
    { result := Except.error "Failed to fetch repositories", disk := disk, cwd := cwd0,
      trace := [] }
  else if listHas env.repositories tfs_repo = false then
    { result := Except.error ("Repository " ++ tfs_repo ++ " not found in the given TFS collection."),
      disk := disk, cwd := cwd0, trace := [] }
  else
    let loaded := load_checkpoint disk
    let checkpoint := loaded.1
    let disk1 := loaded.2
    let repo_name := tfs_repo
    if skipCheck checkpoint collection_name azure_project repo_name then
      { result := Except.ok (), disk := disk1, cwd := cwd0, trace := [] }
    else if check_github_repo_exists config.github_organization git_repo config.github_token
        env.ghStatus = false then
      { result := Except.ok (), disk := disk1, cwd := cwd0,
        trace := [Event.logError ("Repository " ++ git_repo
          ++ " does not exist on GitHub. Migration cannot proceed.")] }
    else
      let tb := tryCloneAndPush env (branchSelector config) only_clone_repos
        (azureRepoUrlOf config env) (repoDirOf config cwd0) (githubRepoUrlOf config env)
      let caught : List Event :=
        match tb.1 with
        | Except.error e =>
            [Event.logError ("An error occurred while processing " ++ repo_name ++ ": " ++ e)]
        | Except.ok _ => []
      let saved := save_checkpoint disk1 collection_name azure_project repo_name
      let disk2 := save_checkpoint_disk disk1 collection_name azure_project repo_name
      let wevs : List Event :=
        if saved.2 then [Event.writeLedger collection_name azure_project repo_name] else []
      { result := Except.ok (), disk := disk2, cwd := baseDirOf cwd0,
        trace := tb.2 ++ caught ++ wevs ++ [Event.chdir (baseDirOf cwd0)] }

/-- The subprocess commands of a trace, in order. -/
def runCmds : List Event → List (List String)
  | [] => []
  | Event.run c :: rest => c :: runCmds rest
  | _ :: rest => runCmds rest

/-- Whether an event is a checkpoint-file write. -/
def isWriteLedger : Event → Bool
  | Event.writeLedger _ _ _ => true
  | _ => false

/-- Whether the block raised. -/
def exceptFailed : Except String Unit → Bool
  | Except.error _ => true
  | Except.ok _ => false

/-! ### Association-list and membership lemmas -/

theorem alGet_alSet_self {α : Type} (l : List (String × α)) (k : String) (v : α) :
    alGet (alSet l k v) k = some v := by
  induction l with
  | nil => simp [alSet, alGet]
  | cons hd tl ih =>
      obtain ⟨k', v'⟩ := hd
      by_cases h : k' = k <;> simp [alSet, alGet, h, ih]

theorem alGet_alSet_ne {α : Type} (l : List (String × α)) (k k' : String) (v : α)
    (h : k' ≠ k) : alGet (alSet l k v) k' = alGet l k' := by
  have h' : k ≠ k' := fun hh => h hh.symm
  induction l with
  | nil => simp [alSet, alGet, h']
  | cons hd tl ih =>
      obtain ⟨k0, v0⟩ := hd
      by_cases h0 : k0 = k
      · subst h0
        simp [alSet, alGet, h']
      · simp only [alSet, if_neg h0, alGet]
        by_cases h1 : k0 = k' <;> simp [h1, ih]

theorem alSet_self {α : Type} (l : List (String × α)) (k : String) (v : α)
    (h : alGet l k = some v) : alSet l k v = l := by
  induction l with
  | nil => simp [alGet] at h
  | cons hd tl ih =>
      obtain ⟨k0, v0⟩ := hd
      by_cases h0 : k0 = k
      · subst h0
        simp [alGet] at h
        simp [alSet, h]
      · simp [alGet, h0] at h
        simp [alSet, h0, ih h]

theorem listHas_iff_mem (l : List String) (x : String) : listHas l x = true ↔ x ∈ l := by
  induction l with
  | nil => simp [listHas]
  | cons hd tl ih =>
      by_cases h : hd = x
      · subst h; simp [listHas]
      · have h' : x ≠ hd := fun hh => h hh.symm
        simp [listHas, h, ih, h']

theorem listHas_append_right (l : List String) (x : String) :
    listHas (l ++ [x]) x = true := by
  rw [listHas_iff_mem]; simp

/-! ### `save_checkpoint` / `load_checkpoint` characterization -/

theorem load_checkpoint_fst (file : Option Checkpoint) :
    (load_checkpoint file).1 = file.getD [] := by
  cases file <;> rfl

theorem load_checkpoint_snd (file : Option Checkpoint) :
    (load_checkpoint file).2 = some (file.getD []) := by
  cases file <;> rfl

/-- When the triple is already recorded, `save_checkpoint` leaves the
document alone and does not write. -/
theorem save_checkpoint_already (file : Option Checkpoint) (c p r : String)
    (h : listHas (reposOf (file.getD []) c p) r = true) :
    save_checkpoint file c p r = (file.getD [], false) := by
  rcases hc : alGet (file.getD []) c with _ | projs
  · exfalso
    simp [reposOf, projectsOf, hc, alGet, listHas] at h
  · rcases hp : alGet (projectsOf (file.getD []) c) p with _ | repos
    · exfalso
      simp [reposOf, hp, listHas] at h
    · have hp' : alGet projs p = some repos := by
        simpa [projectsOf, hc] using hp
      have h' : listHas repos r = true := by
        simpa [reposOf, hp] using h
      simp [save_checkpoint, projectsOf, hc, hp', h']

/-- When the triple is not yet recorded, `save_checkpoint` writes, and the
repo list for that collection/project becomes the old list with the repo
appended. -/
theorem save_checkpoint_new (file : Option Checkpoint) (c p r : String)
    (h : listHas (reposOf (file.getD []) c p) r = false) :
    (save_checkpoint file c p r).2 = true ∧
      reposOf (save_checkpoint file c p r).1 c p = reposOf (file.getD []) c p ++ [r] := by
  rcases hc : alGet (file.getD []) c with _ | projs
  · have hrepos : reposOf (file.getD []) c p = [] := by
      simp [reposOf, projectsOf, hc, alGet]
    rw [hrepos]
    simp [save_checkpoint, projectsOf, reposOf, hc, alGet_alSet_self, alGet, listHas]
  · have hp' : alGet projs p = alGet (projectsOf (file.getD []) c) p := by
      simp [projectsOf, hc]
    rcases hp : alGet projs p with _ | repos
    · have hrepos : reposOf (file.getD []) c p = [] := by
        rw [hp] at hp'
        simp [reposOf, ← hp']
      rw [hrepos]
      simp [save_checkpoint, projectsOf, reposOf, hc, hp, alGet_alSet_self, listHas]
    · have hrepos : reposOf (file.getD []) c p = repos := by
        rw [hp] at hp'
        simp [reposOf, ← hp']
      rw [hrepos] at h ⊢
      simp [save_checkpoint, projectsOf, reposOf, hc, hp, h, alGet_alSet_self]

/-- `save_checkpoint` writes exactly when the triple was absent. -/
theorem save_checkpoint_wrote_iff (file : Option Checkpoint) (c p r : String) :
    (save_checkpoint file c p r).2 = !listHas (reposOf (file.getD []) c p) r := by
  rcases h : listHas (reposOf (file.getD []) c p) r
  · simp [(save_checkpoint_new file c p r h).1]
  · simp [save_checkpoint_already file c p r h]

/-- After `save_checkpoint`, the triple is recorded in the in-memory document. -/
theorem save_checkpoint_mem (file : Option Checkpoint) (c p r : String) :
    listHas (reposOf (save_checkpoint file c p r).1 c p) r = true := by
  rcases h : listHas (reposOf (file.getD []) c p) r
  · rw [(save_checkpoint_new file c p r h).2]
    exact listHas_append_right _ _
  · rw [save_checkpoint_already file c p r h]
    exact h

/-- After `save_checkpoint`, the triple is recorded in the on-disk document. -/
theorem save_checkpoint_disk_mem (file : Option Checkpoint) (c p r : String) :
    listHas (reposOf ((save_checkpoint_disk file c p r).getD []) c p) r = true := by
  rcases h : (save_checkpoint file c p r).2
  · have hw := save_checkpoint_wrote_iff file c p r
    rw [h] at hw
    have hmem : listHas (reposOf (file.getD []) c p) r = true := by
      rcases hm : listHas (reposOf (file.getD []) c p) r
      · rw [hm] at hw; simp at hw
      · rfl
    simpa [save_checkpoint_disk, h] using hmem
  · simpa [save_checkpoint_disk, h] using save_checkpoint_mem file c p r

/-- The skip test succeeds exactly when the repo is listed under its
collection and project. -/
theorem skipCheck_eq_listHas (cp : Checkpoint) (c p r : String) :
    skipCheck cp c p r = listHas (reposOf cp c p) r := by
  rcases hc : alGet cp c with _ | projs
  · simp [skipCheck, reposOf, projectsOf, hc, alGet, listHas]
  · rcases hp : alGet (projectsOf cp c) p with _ | repos
    · have hp' : alGet projs p = none := by simpa [projectsOf, hc] using hp
      simp [skipCheck, reposOf, projectsOf, hc, hp', listHas]
    · have hp' : alGet projs p = some repos := by simpa [projectsOf, hc] using hp
      simp [skipCheck, reposOf, projectsOf, hc, hp']

/-! ### Retry-loop lemmas -/

/-- Prepending failing attempts to the retry loop. -/
theorem retryAux_append (cmd : List String) (behav : Nat → Bool) (l1 l2 : List Nat)
    (h : ∀ i ∈ l1, behav i = false) :
    retryAux cmd behav (l1 ++ l2) =
      ((retryAux cmd behav l2).1,
        (l1.flatMap fun i => [Event.run cmd, Event.sleep (2 ^ i)]) ++ (retryAux cmd behav l2).2) := by
  induction l1 with
  | nil => simp
  | cons i rest ih =>
      have hi : behav i = false := h i (by simp)
      have hrest : ∀ j ∈ rest, behav j = false := fun j hj => h j (by simp [hj])
      simp [retryAux, hi, ih hrest, List.flatMap_cons]

/-- A loop over attempts that all fail falls through to the `raise`. -/
theorem retryAux_allfail (cmd : List String) (behav : Nat → Bool) (l : List Nat)
    (h : ∀ i ∈ l, behav i = false) :
    retryAux cmd behav l =
      (false, l.flatMap fun i => [Event.run cmd, Event.sleep (2 ^ i)]) := by
  have := retryAux_append cmd behav l [] h
  simpa [retryAux] using this

/-- Splitting `List.range n` at an index `k < n`. -/
theorem range_split (k n : Nat) (h : k < n) :
    ∃ rest, List.range n = List.range k ++ k :: rest := by
  induction n with
  | zero => omega
  | succ m ih =>
      by_cases hk : k < m
      · obtain ⟨rest, hrest⟩ := ih hk
        exact ⟨rest ++ [m], by rw [List.range_succ, hrest]; simp⟩
      · have : k = m := by omega
        subst this
        exact ⟨[], by rw [List.range_succ]⟩

/-- Every subprocess event of a retry loop runs the given command. -/
theorem retryAux_run_eq (cmd : List String) (behav : Nat → Bool) (l : List Nat) :
    ∀ x ∈ runCmds (retryAux cmd behav l).2, x = cmd := by
  induction l with
  | nil => simp [retryAux, runCmds]
  | cons i rest ih =>
      intro x hx
      rcases hb : behav i
      · simp only [retryAux, hb, Bool.false_eq_true, if_false, runCmds,
          List.mem_cons] at hx
        rcases hx with hx | hx
        · exact hx
        · exact ih x hx
      · simp only [retryAux, hb, if_true, runCmds, List.mem_singleton] at hx
        exact hx

/-- The retry loop emits only subprocess and sleep events. -/
theorem retryAux_events (cmd : List String) (behav : Nat → Bool) (l : List Nat) :
    ∀ e ∈ (retryAux cmd behav l).2,
      e = Event.run cmd ∨ ∃ t, e = Event.sleep t := by
  induction l with
  | nil => simp [retryAux]
  | cons i rest ih =>
      intro e he
      rcases hb : behav i
      · simp only [retryAux, hb, Bool.false_eq_true, if_false, List.mem_cons] at he
        rcases he with he | he | he
        · exact Or.inl he
        · exact Or.inr ⟨_, he⟩
        · exact ih e he
      · simp only [retryAux, hb, if_true, List.mem_singleton] at he
        exact Or.inl he

/-- `runCmds` distributes over trace concatenation. -/
theorem runCmds_append (t1 t2 : List Event) :
    runCmds (t1 ++ t2) = runCmds t1 ++ runCmds t2 := by
  induction t1 with
  | nil => simp [runCmds]
  | cons e rest ih => cases e <;> simp [runCmds, ih]

/-- The trace of `retry_subprocess` is the trace of its loop. -/
theorem retry_subprocess_snd (cmd : List String) (behav : Nat → Bool) (n : Nat) :
    (retry_subprocess cmd behav n).2 = (retryAux cmd behav (List.range n)).2 := by
  simp only [retry_subprocess]
  split <;> rfl

/-- Every command issued by `retry_subprocess` is the given command. -/
theorem retry_subprocess_run_eq (cmd : List String) (behav : Nat → Bool) (n : Nat) :
    ∀ x ∈ runCmds (retry_subprocess cmd behav n).2, x = cmd := by
  intro x hx
  rw [retry_subprocess_snd] at hx
  exact retryAux_run_eq cmd behav (List.range n) x hx

/-- Every event of `retry_subprocess` is a subprocess run of the given
command or a sleep. -/
theorem retry_subprocess_events (cmd : List String) (behav : Nat → Bool) (n : Nat) :
    ∀ e ∈ (retry_subprocess cmd behav n).2,
      e = Event.run cmd ∨ ∃ t, e = Event.sleep t := by
  intro e he
  rw [retry_subprocess_snd] at he
  exact retryAux_events cmd behav (List.range n) e he

/-- Unfolding the per-branch loop when the fetch raises. -/
theorem migrate_cons_fetch_err (repo_dir github_repo_url b : String) (rest : List String)
    (behav : List String → Nat → Bool) (e : String)
    (hf : (retry_subprocess (fetchCmd b) (behav (fetchCmd b))).1 = Except.error e) :
    migrate_specific_branches repo_dir github_repo_url (b :: rest) behav =
      (Except.error e, (retry_subprocess (fetchCmd b) (behav (fetchCmd b))).2) := by
  simp only [migrate_specific_branches]
  rw [hf]

/-- Unfolding the per-branch loop when the fetch succeeds but the push
raises. -/
theorem migrate_cons_push_err (repo_dir github_repo_url b : String) (rest : List String)
    (behav : List String → Nat → Bool) (u : Unit) (e : String)
    (hf : (retry_subprocess (fetchCmd b) (behav (fetchCmd b))).1 = Except.ok u)
    (hp : (retry_subprocess (pushBranchCmd github_repo_url b)
        (behav (pushBranchCmd github_repo_url b))).1 = Except.error e) :
    migrate_specific_branches repo_dir github_repo_url (b :: rest) behav =
      (Except.error e,
        (retry_subprocess (fetchCmd b) (behav (fetchCmd b))).2
          ++ (retry_subprocess (pushBranchCmd github_repo_url b)
                (behav (pushBranchCmd github_repo_url b))).2) := by
  simp only [migrate_specific_branches]
  rw [hf, hp]

/-- Unfolding the per-branch loop when both commands for the head branch
succeed. -/
theorem migrate_cons_ok (repo_dir github_repo_url b : String) (rest : List String)
    (behav : List String → Nat → Bool) (u u' : Unit)
    (hf : (retry_subprocess (fetchCmd b) (behav (fetchCmd b))).1 = Except.ok u)
    (hp : (retry_subprocess (pushBranchCmd github_repo_url b)
        (behav (pushBranchCmd github_repo_url b))).1 = Except.ok u') :
    migrate_specific_branches repo_dir github_repo_url (b :: rest) behav =
      ((migrate_specific_branches repo_dir github_repo_url rest behav).1,
        (retry_subprocess (fetchCmd b) (behav (fetchCmd b))).2
          ++ (retry_subprocess (pushBranchCmd github_repo_url b)
                (behav (pushBranchCmd github_repo_url b))).2
          ++ (migrate_specific_branches repo_dir github_repo_url rest behav).2) := by
  simp only [migrate_specific_branches]
  rw [hf, hp]

/-- Every command issued by the per-branch loop is a fetch or a branch push. -/
theorem migrate_run_shape (repo_dir github_repo_url : String) (branches : List String)
    (behav : List String → Nat → Bool) :
    ∀ x ∈ runCmds (migrate_specific_branches repo_dir github_repo_url branches behav).2,
      (∃ b, x = fetchCmd b) ∨ (∃ b, x = pushBranchCmd github_repo_url b) := by
  induction branches with
  | nil => simp [migrate_specific_branches, runCmds]
  | cons b rest ih =>
      intro x hx
      rcases hf : (retry_subprocess (fetchCmd b) (behav (fetchCmd b))).1 with e | u
      · rw [migrate_cons_fetch_err repo_dir github_repo_url b rest behav e hf] at hx
        exact Or.inl ⟨b, retry_subprocess_run_eq _ _ _ x hx⟩
      · rcases hp : (retry_subprocess (pushBranchCmd github_repo_url b)
            (behav (pushBranchCmd github_repo_url b))).1 with e | u'
        · rw [migrate_cons_push_err repo_dir github_repo_url b rest behav u e hf hp,
            runCmds_append] at hx
          rcases List.mem_append.mp hx with hx | hx
          · exact Or.inl ⟨b, retry_subprocess_run_eq _ _ _ x hx⟩
          · exact Or.inr ⟨b, retry_subprocess_run_eq _ _ _ x hx⟩
        · rw [migrate_cons_ok repo_dir github_repo_url b rest behav u u' hf hp,
            runCmds_append, runCmds_append] at hx
          rcases List.mem_append.mp hx with hx | hx
          · rcases List.mem_append.mp hx with hx | hx
            · exact Or.inl ⟨b, retry_subprocess_run_eq _ _ _ x hx⟩
            · exact Or.inr ⟨b, retry_subprocess_run_eq _ _ _ x hx⟩
          · exact ih x hx

/-- The per-branch loop emits only subprocess and sleep events. -/
theorem migrate_events (repo_dir github_repo_url : String) (branches : List String)
    (behav : List String → Nat → Bool) :
    ∀ e ∈ (migrate_specific_branches repo_dir github_repo_url branches behav).2,
      (∃ c, e = Event.run c) ∨ ∃ t, e = Event.sleep t := by
  have hre : ∀ (cmd : List String) (bh : Nat → Bool) (n : Nat),
      ∀ x ∈ (retry_subprocess cmd bh n).2,
        (∃ c, x = Event.run c) ∨ ∃ t, x = Event.sleep t := by
    intro cmd bh n x hx
    rcases retry_subprocess_events cmd bh n x hx with h | ⟨t, ht⟩
    · exact Or.inl ⟨cmd, h⟩
    · exact Or.inr ⟨t, ht⟩
  induction branches with
  | nil => simp [migrate_specific_branches]
  | cons b rest ih =>
      intro ev hev
      rcases hf : (retry_subprocess (fetchCmd b) (behav (fetchCmd b))).1 with e | u
      · rw [migrate_cons_fetch_err repo_dir github_repo_url b rest behav e hf] at hev
        exact hre _ _ _ ev hev
      · rcases hp : (retry_subprocess (pushBranchCmd github_repo_url b)
            (behav (pushBranchCmd github_repo_url b))).1 with e | u'
        · rw [migrate_cons_push_err repo_dir github_repo_url b rest behav u e hf hp] at hev
          rcases List.mem_append.mp hev with hev | hev
          · exact hre _ _ _ ev hev
          · exact hre _ _ _ ev hev
        · rw [migrate_cons_ok repo_dir github_repo_url b rest behav u u' hf hp] at hev
          rcases List.mem_append.mp hev with hev | hev
          · rcases List.mem_append.mp hev with hev | hev
            · exact hre _ _ _ ev hev
            · exact hre _ _ _ ev hev
          · exact ih ev hev

/-- `runCmds` of the retry-loop trace shape. -/
theorem runCmds_flatMap (cmd : List String) (l : List Nat) :
    runCmds (l.flatMap fun i => [Event.run cmd, Event.sleep (2 ^ i)]) =
      l.map fun _ => cmd := by
  induction l with
  | nil => simp [runCmds]
  | cons i rest ih =>
      rw [List.flatMap_cons, runCmds_append, ih]
      simp [runCmds]

/-- A retry loop whose attempts all fail: one invocation and one sleep of
`2 ^ attempt` per attempt, then the terminal error naming the command and
the attempt count. -/
theorem retry_subprocess_allfail (cmd : List String) (behav : Nat → Bool) (n : Nat)
    (h : ∀ i, behav i = false) :
    retry_subprocess cmd behav n =
      (Except.error ("Command failed after " ++ toString n ++ " retries: " ++ toString cmd),
        (List.range n).flatMap fun i => [Event.run cmd, Event.sleep (2 ^ i)]) := by
  have hall := retryAux_allfail cmd behav (List.range n) (fun i _ => h i)
  simp [retry_subprocess, hall]

/-- A retry loop whose first attempt succeeds: a single invocation, no sleep. -/
theorem retry_subprocess_first_success (cmd : List String) (behav : Nat → Bool) (n : Nat)
    (h0 : behav 0 = true) (hn : 0 < n) :
    retry_subprocess cmd behav n = (Except.ok (), [Event.run cmd]) := by
  obtain ⟨m, rfl⟩ : ∃ m, n = m + 1 := ⟨n - 1, by omega⟩
  have hr : List.range (m + 1) = 0 :: (List.range m).map Nat.succ := List.range_succ_eq_map m
  have : retryAux cmd behav (List.range (m + 1)) = (true, [Event.run cmd]) := by
    rw [hr]
    simp [retryAux, h0]
  simp [retry_subprocess, this]

/-! ### `tryCloneAndPush` unfolding lemmas -/

/-- Unfolding the `try` block when the clone phase raises. -/
theorem tryCloneAndPush_clone_err (env : Env) (sel : BranchSel) (only : Bool)
    (au rd gu : String) (e : String)
    (h : (cloneStep env sel au rd).1 = Except.error e) :
    tryCloneAndPush env sel only au rd gu = (Except.error e, (cloneStep env sel au rd).2) := by
  simp only [tryCloneAndPush]
  rw [h]

/-- Unfolding the `try` block in clone-only mode with a successful clone
phase: no push, no `chdir`. -/
theorem tryCloneAndPush_clone_only (env : Env) (sel : BranchSel) (au rd gu : String) (u : Unit)
    (h : (cloneStep env sel au rd).1 = Except.ok u) :
    tryCloneAndPush env sel true au rd gu = (Except.ok (), (cloneStep env sel au rd).2) := by
  simp only [tryCloneAndPush]
  rw [h]
  simp

/-- Unfolding the `try` block in clone-and-push mode with a successful clone
phase: `chdir` to the clone directory, then the push phase. -/
theorem tryCloneAndPush_push (env : Env) (sel : BranchSel) (au rd gu : String) (u : Unit)
    (h : (cloneStep env sel au rd).1 = Except.ok u) :
    tryCloneAndPush env sel false au rd gu =
      ((pushStep env sel rd gu).1,
        (cloneStep env sel au rd).2 ++ Event.chdir rd :: (pushStep env sel rd gu).2) := by
  simp only [tryCloneAndPush]
  rw [h]
  simp

/-- The trace of the `try` block always starts with the clone-phase trace. -/
theorem tryCloneAndPush_trace_head (env : Env) (sel : BranchSel) (only : Bool)
    (au rd gu : String) :
    ∃ t, (tryCloneAndPush env sel only au rd gu).2 = (cloneStep env sel au rd).2 ++ t := by
  rcases h : (cloneStep env sel au rd).1 with e | u
  · exact ⟨[], by rw [tryCloneAndPush_clone_err env sel only au rd gu e h]; simp⟩
  · rcases only
    · exact ⟨Event.chdir rd :: (pushStep env sel rd gu).2,
        by rw [tryCloneAndPush_push env sel au rd gu u h]⟩
    · exact ⟨[], by rw [tryCloneAndPush_clone_only env sel au rd gu u h]; simp⟩

/-! ### Orchestrator path lemmas -/

/-- The listing call failed: the whole run raises. -/
theorem run_list_fail (config : Config) (only : Bool) (env : Env) (disk : Option Checkpoint)
    (cwd0 : String) (h : env.listStatus ≠ 200) :
    clone_and_push_repositories config only env disk cwd0 =
      { result := Except.error "Failed to fetch repositories", disk := disk, cwd := cwd0,
        trace := [] } := by
  simp [clone_and_push_repositories, h]

/-- The configured source repo is not in the listing: the run raises. -/
theorem run_not_found (config : Config) (only : Bool) (env : Env) (disk : Option Checkpoint)
    (cwd0 : String) (h200 : env.listStatus = 200)
    (h : listHas env.repositories config.tfs_source_repo = false) :
    clone_and_push_repositories config only env disk cwd0 =
      { result := Except.error ("Repository " ++ config.tfs_source_repo
          ++ " not found in the given TFS collection."),
        disk := disk, cwd := cwd0, trace := [] } := by
  simp [clone_and_push_repositories, h200, h]

/-- The ledger already records the triple: the run returns at the skip
check. -/
theorem run_skip (config : Config) (only : Bool) (env : Env) (disk : Option Checkpoint)
    (cwd0 : String) (h200 : env.listStatus = 200)
    (hmem : listHas env.repositories config.tfs_source_repo = true)
    (hskip : skipCheck (disk.getD []) config.azure_devops_organization
      config.azure_devops_project config.tfs_source_repo = true) :
    clone_and_push_repositories config only env disk cwd0 =
      { result := Except.ok (), disk := some (disk.getD []), cwd := cwd0, trace := [] } := by
  simp [clone_and_push_repositories, h200, hmem, load_checkpoint_fst, load_checkpoint_snd, hskip]

/-- The GitHub existence check observed a non-200 status: log an error and
stop, before the `try` block. -/
theorem run_gh_missing (config : Config) (only : Bool) (env : Env) (disk : Option Checkpoint)
    (cwd0 : String) (h200 : env.listStatus = 200)
    (hmem : listHas env.repositories config.tfs_source_repo = true)
    (hskip : skipCheck (disk.getD []) config.azure_devops_organization
      config.azure_devops_project config.tfs_source_repo = false)
    (hgh : env.ghStatus ≠ 200) :
    clone_and_push_repositories config only env disk cwd0 =
      { result := Except.ok (), disk := some (disk.getD []), cwd := cwd0,
        trace := [Event.logError ("Repository " ++ config.github_target_repo
          ++ " does not exist on GitHub. Migration cannot proceed.")] } := by
  simp [clone_and_push_repositories, h200, hmem, load_checkpoint_fst, load_checkpoint_snd,
    hskip, check_github_repo_exists, hgh]

/-- All pre-checks passed: the run executes the `try` block, logs any raised
error, and the `finally` clause writes the checkpoint (the triple was absent,
so the write happens) and changes back to the base directory. -/
theorem run_block (config : Config) (only : Bool) (env : Env) (disk : Option Checkpoint)
    (cwd0 : String) (h200 : env.listStatus = 200)
    (hmem : listHas env.repositories config.tfs_source_repo = true)
    (hskip : skipCheck (disk.getD []) config.azure_devops_organization
      config.azure_devops_project config.tfs_source_repo = false)
    (hgh : env.ghStatus = 200) :
    clone_and_push_repositories config only env disk cwd0 =
      { result := Except.ok (),
        disk := some ((save_checkpoint (some (disk.getD []))
          config.azure_devops_organization config.azure_devops_project
          config.tfs_source_repo).1),
        cwd := baseDirOf cwd0,
        trace := (tryCloneAndPush env (branchSelector config) only (azureRepoUrlOf config env)
            (repoDirOf config cwd0) (githubRepoUrlOf config env)).2
          ++ (match (tryCloneAndPush env (branchSelector config) only (azureRepoUrlOf config env)
              (repoDirOf config cwd0) (githubRepoUrlOf config env)).1 with
              | Except.error e => [Event.logError ("An error occurred while processing "
                  ++ config.tfs_source_repo ++ ": " ++ e)]
              | Except.ok _ => [])
          ++ [Event.writeLedger config.azure_devops_organization config.azure_devops_project
                config.tfs_source_repo,
              Event.chdir (baseDirOf cwd0)] } := by
  have hnot : listHas (reposOf (disk.getD []) config.azure_devops_organization
      config.azure_devops_project) config.tfs_source_repo = false := by
    rw [← skipCheck_eq_listHas]
    exact hskip
  have hwrote : (save_checkpoint (some (disk.getD [])) config.azure_devops_organization
      config.azure_devops_project config.tfs_source_repo).2 = true := by
    rw [save_checkpoint_wrote_iff]
    simp [hnot]
  simp only [clone_and_push_repositories, h200, ne_eq, not_true_eq_false, if_false,
    load_checkpoint_fst, load_checkpoint_snd]
  rw [if_neg (by simp [hmem]), if_neg (by simp [hskip]),
    if_neg (by simp [check_github_repo_exists, hgh])]
  simp only [save_checkpoint_disk, hwrote, if_true]
  rcases htb : (tryCloneAndPush env (branchSelector config) only (azureRepoUrlOf config env)
      (repoDirOf config cwd0) (githubRepoUrlOf config env)).1 with e | u
  · simp [htb]
  · simp [htb]

/-! ### Claims C4, C5, C6, C7 -/

/-- C4: for every command and retry bound `n` (default 3), a command that
always exits non-zero is invoked exactly `n` times, with a backoff sleep of
`2 ^ attempt` time units after attempt `attempt` (delays `1, 2, 4, …`
between attempts), and the wrapper then raises a terminal error naming the
command and the attempt count; a command whose first zero exit is attempt
`k` makes the wrapper return right after invocation `k + 1`, with no further
attempts and no further delay. -/
theorem claim_C4 (cmd : List String) (n : Nat) (behav : Nat → Bool) :
    ((∀ i, behav i = false) →
      retry_subprocess cmd behav n =
        (Except.error ("Command failed after " ++ toString n ++ " retries: " ++ toString cmd),
          (List.range n).flatMap fun i => [Event.run cmd, Event.sleep (2 ^ i)]) ∧
      (runCmds (retry_subprocess cmd behav n).2).length = n) ∧
    (∀ k, k < n → behav k = true → (∀ j, j < k → behav j = false) →
      retry_subprocess cmd behav n =
        (Except.ok (),
          ((List.range k).flatMap fun i => [Event.run cmd, Event.sleep (2 ^ i)])
            ++ [Event.run cmd]) ∧
      (runCmds (retry_subprocess cmd behav n).2).length = k + 1) := by
  constructor
  · intro h
    have heq := retry_subprocess_allfail cmd behav n h
    refine ⟨heq, ?_⟩
    rw [heq]
    rw [show ((Except.error ("Command failed after " ++ toString n ++ " retries: "
        ++ toString cmd) : Except String Unit),
        (List.range n).flatMap fun i => [Event.run cmd, Event.sleep (2 ^ i)]).2
      = (List.range n).flatMap fun i => [Event.run cmd, Event.sleep (2 ^ i)] from rfl]
    rw [runCmds_flatMap]
    simp
  · intro k hk hbk hlt
    have hfail : ∀ i ∈ List.range k, behav i = false := fun i hi =>
      hlt i (List.mem_range.mp hi)
    obtain ⟨rest, hsplit⟩ := range_split k n hk
    have haux : retryAux cmd behav (List.range n) =
        (true, ((List.range k).flatMap fun i => [Event.run cmd, Event.sleep (2 ^ i)])
          ++ [Event.run cmd]) := by
      rw [hsplit, retryAux_append cmd behav _ _ hfail]
      simp [retryAux, hbk]
    have heq : retry_subprocess cmd behav n =
        (Except.ok (),
          ((List.range k).flatMap fun i => [Event.run cmd, Event.sleep (2 ^ i)])
            ++ [Event.run cmd]) := by
      simp [retry_subprocess, haux]
    refine ⟨heq, ?_⟩
    rw [heq]
    rw [show ((Except.ok () : Except String Unit),
        ((List.range k).flatMap fun i => [Event.run cmd, Event.sleep (2 ^ i)])
          ++ [Event.run cmd]).2
      = ((List.range k).flatMap fun i => [Event.run cmd, Event.sleep (2 ^ i)])
          ++ [Event.run cmd] from rfl]
    rw [runCmds_append, runCmds_flatMap]
    simp [runCmds]

/-- C4 witness: the always-failing case at the default bound 3 and the
first-success-at-attempt-1 case. -/
theorem claim_C4_witness :
    (retry_subprocess ["git", "clone"] (fun _ => false) 3 =
      (Except.error ("Command failed after " ++ toString 3 ++ " retries: "
          ++ toString ["git", "clone"]),
        (List.range 3).flatMap fun i => [Event.run ["git", "clone"], Event.sleep (2 ^ i)]) ∧
      (runCmds (retry_subprocess ["git", "clone"] (fun _ => false) 3).2).length = 3) ∧
    (retry_subprocess ["git", "clone"] (fun i => i == 1) 3 =
      (Except.ok (),
        ((List.range 1).flatMap fun i => [Event.run ["git", "clone"], Event.sleep (2 ^ i)])
          ++ [Event.run ["git", "clone"]]) ∧
      (runCmds (retry_subprocess ["git", "clone"] (fun i => i == 1) 3).2).length = 1 + 1) :=
  ⟨(claim_C4 ["git", "clone"] 3 (fun _ => false)).1 (fun _ => rfl),
   (claim_C4 ["git", "clone"] 3 (fun i => i == 1)).2 1 (by decide) rfl
     (fun j hj => by
        have hj0 : j = 0 := by omega
        subst hj0
        rfl)⟩

/-- C5: `save_checkpoint` is idempotent — when the triple is already in the
persisted document it neither changes the document nor writes to disk; when
it is absent it writes once, appending the repo name, and a second recording
of the same triple is a no-op that leaves the persisted file identical. -/
theorem claim_C5 (file : Option Checkpoint) (c p r : String) :
    (listHas (reposOf (file.getD []) c p) r = true →
      save_checkpoint file c p r = (file.getD [], false) ∧
      save_checkpoint_disk file c p r = file) ∧
    (listHas (reposOf (file.getD []) c p) r = false →
      (save_checkpoint file c p r).2 = true ∧
      reposOf (save_checkpoint file c p r).1 c p = reposOf (file.getD []) c p ++ [r] ∧
      save_checkpoint (save_checkpoint_disk file c p r) c p r
        = ((save_checkpoint file c p r).1, false) ∧
      save_checkpoint_disk (save_checkpoint_disk file c p r) c p r
        = save_checkpoint_disk file c p r) := by
  constructor
  · intro h
    have heq := save_checkpoint_already file c p r h
    exact ⟨heq, by simp [save_checkpoint_disk, heq]⟩
  · intro h
    obtain ⟨hw, happ⟩ := save_checkpoint_new file c p r h
    have hdisk : save_checkpoint_disk file c p r = some (save_checkpoint file c p r).1 := by
      simp [save_checkpoint_disk, hw]
    have hmem2 : listHas (reposOf ((save_checkpoint_disk file c p r).getD []) c p) r = true :=
      save_checkpoint_disk_mem file c p r
    have h2 := save_checkpoint_already (save_checkpoint_disk file c p r) c p r hmem2
    refine ⟨hw, happ, ?_, ?_⟩
    · rw [h2, hdisk]
      simp
    · rw [show save_checkpoint_disk (save_checkpoint_disk file c p r) c p r
          = if (save_checkpoint (save_checkpoint_disk file c p r) c p r).2
              then some (save_checkpoint (save_checkpoint_disk file c p r) c p r).1
              else save_checkpoint_disk file c p r from rfl, h2]
      simp

/-- C5 witness: the already-present case on a one-entry ledger and the
absent case starting from a missing checkpoint file. -/
theorem claim_C5_witness :
    (save_checkpoint (some [("c", [("p", ["r"])])]) "c" "p" "r"
        = ((some [("c", [("p", ["r"])])] : Option Checkpoint).getD [], false) ∧
      save_checkpoint_disk (some [("c", [("p", ["r"])])]) "c" "p" "r"
        = some [("c", [("p", ["r"])])]) ∧
    ((save_checkpoint (none : Option Checkpoint) "c" "p" "r").2 = true ∧
      reposOf (save_checkpoint (none : Option Checkpoint) "c" "p" "r").1 "c" "p"
        = reposOf ((none : Option Checkpoint).getD []) "c" "p" ++ ["r"] ∧
      save_checkpoint (save_checkpoint_disk (none : Option Checkpoint) "c" "p" "r") "c" "p" "r"
        = ((save_checkpoint (none : Option Checkpoint) "c" "p" "r").1, false) ∧
      save_checkpoint_disk (save_checkpoint_disk (none : Option Checkpoint) "c" "p" "r") "c" "p" "r"
        = save_checkpoint_disk (none : Option Checkpoint) "c" "p" "r") :=
  ⟨(claim_C5 (some [("c", [("p", ["r"])])]) "c" "p" "r").1 (by decide),
   (claim_C5 (none : Option Checkpoint) "c" "p" "r").2 (by decide)⟩

/-- C6: ledger round-trip — writing the document to disk via
`save_checkpoint` and reloading it via `load_checkpoint` yields exactly the
mapping that `save_checkpoint` computed. -/
theorem claim_C6 (file : Option Checkpoint) (c p r : String) :
    (load_checkpoint (save_checkpoint_disk file c p r)).1 = (save_checkpoint file c p r).1 := by
  rcases hw : (save_checkpoint file c p r).2
  · have hw' := save_checkpoint_wrote_iff file c p r
    rw [hw] at hw'
    have hmem : listHas (reposOf (file.getD []) c p) r = true := by
      rcases hm : listHas (reposOf (file.getD []) c p) r
      · rw [hm] at hw'; simp at hw'
      · rfl
    have heq := save_checkpoint_already file c p r hmem
    simp [save_checkpoint_disk, hw, heq, load_checkpoint_fst]
  · simp [save_checkpoint_disk, hw, load_checkpoint]

/-- C7: the push phase for an explicit branch list processes branches
strictly in order — for each branch a fetch of that branch, then a push of
`refs/remotes/origin/<branch>` to `refs/heads/<branch>`, completing one
branch before the next — and a branch whose fetch keeps failing aborts the
loop: the trace ends at that branch, with no event for the remaining
branches. -/
theorem claim_C7 (repo_dir github_repo_url : String) (behav : List String → Nat → Bool)
    (branches pre rest : List String) (b : String) :
    ((∀ cmd, behav cmd 0 = true) →
      migrate_specific_branches repo_dir github_repo_url branches behav =
        (Except.ok (), branches.flatMap fun b' =>
          [Event.run (fetchCmd b'), Event.run (pushBranchCmd github_repo_url b')])) ∧
    ((∀ b' ∈ pre, behav (fetchCmd b') 0 = true
        ∧ behav (pushBranchCmd github_repo_url b') 0 = true) →
     (∀ i, behav (fetchCmd b) i = false) →
      migrate_specific_branches repo_dir github_repo_url (pre ++ b :: rest) behav =
        (Except.error ("Command failed after " ++ toString 3 ++ " retries: "
            ++ toString (fetchCmd b)),
          (pre.flatMap fun b' =>
            [Event.run (fetchCmd b'), Event.run (pushBranchCmd github_repo_url b')])
            ++ ((List.range 3).flatMap fun i =>
                  [Event.run (fetchCmd b), Event.sleep (2 ^ i)]))) := by
  constructor
  · intro h
    induction branches with
    | nil => simp [migrate_specific_branches]
    | cons b' bs ih =>
        have hf : retry_subprocess (fetchCmd b') (behav (fetchCmd b'))
            = (Except.ok (), [Event.run (fetchCmd b')]) :=
          retry_subprocess_first_success _ _ 3 (h _) (by omega)
        have hp : retry_subprocess (pushBranchCmd github_repo_url b')
              (behav (pushBranchCmd github_repo_url b'))
            = (Except.ok (), [Event.run (pushBranchCmd github_repo_url b')]) :=
          retry_subprocess_first_success _ _ 3 (h _) (by omega)
        rw [migrate_cons_ok repo_dir github_repo_url b' bs behav () ()
          (by rw [hf]) (by rw [hp]), ih]
        simp [hf, hp, List.flatMap_cons]
  · intro hpre hb
    induction pre with
    | nil =>
        have hf := retry_subprocess_allfail (fetchCmd b) (behav (fetchCmd b)) 3 hb
        rw [List.nil_append,
          migrate_cons_fetch_err repo_dir github_repo_url b rest behav _ (by rw [hf])]
        rw [hf]
        simp
    | cons q qs ih =>
        obtain ⟨hqf, hqp⟩ := hpre q (by simp)
        have hpre' : ∀ b' ∈ qs, behav (fetchCmd b') 0 = true
            ∧ behav (pushBranchCmd github_repo_url b') 0 = true :=
          fun b' hb' => hpre b' (by simp [hb'])
        have hf : retry_subprocess (fetchCmd q) (behav (fetchCmd q))
            = (Except.ok (), [Event.run (fetchCmd q)]) :=
          retry_subprocess_first_success _ _ 3 hqf (by omega)
        have hp : retry_subprocess (pushBranchCmd github_repo_url q)
              (behav (pushBranchCmd github_repo_url q))
            = (Except.ok (), [Event.run (pushBranchCmd github_repo_url q)]) :=
          retry_subprocess_first_success _ _ 3 hqp (by omega)
        rw [List.cons_append,
          migrate_cons_ok repo_dir github_repo_url q (qs ++ b :: rest) behav () ()
            (by rw [hf]) (by rw [hp]), ih hpre']
        simp [hf, hp, List.flatMap_cons]

/-- C7 witness: with branches `["main", "feature-x"]` and every command
succeeding at once, the trace is fetch-main, push-main, fetch-feature-x,
push-feature-x; and a fetch that keeps failing on the second branch leaves
no event for the third. -/
theorem claim_C7_witness :
    (migrate_specific_branches "d" "u" ["main", "feature-x"] (fun _ _ => true) =
      (Except.ok (), (["main", "feature-x"].flatMap fun b' =>
        [Event.run (fetchCmd b'), Event.run (pushBranchCmd "u" b')]))) ∧
    (migrate_specific_branches "d" "u" (["main"] ++ "feature-x" :: ["extra"])
        (fun cmd _ => !(cmd == fetchCmd "feature-x")) =
      (Except.error ("Command failed after " ++ toString 3 ++ " retries: "
          ++ toString (fetchCmd "feature-x")),
        (["main"].flatMap fun b' =>
          [Event.run (fetchCmd b'), Event.run (pushBranchCmd "u" b')])
          ++ ((List.range 3).flatMap fun i =>
                [Event.run (fetchCmd "feature-x"), Event.sleep (2 ^ i)]))) :=
  ⟨(claim_C7 "d" "u" (fun _ _ => true) ["main", "feature-x"] [] [] "z").1 (fun _ => rfl),
   (claim_C7 "d" "u" (fun cmd _ => !(cmd == fetchCmd "feature-x")) []
      ["main"] ["extra"] "feature-x").2 (by decide) (fun _ => by decide)⟩

/-! ### Claims C1, C2, C3 -/

/-- C1: when a run reaches the clone/push block and the block raises (during
clone or push), the exception is caught and logged at the orchestrator level
— the run still returns normally — and the `finally` clause still records
the (collection, project, repo) triple in the checkpoint, so the skip test
succeeds on the resulting ledger and a later run will skip the
partially-failed migration. -/
theorem claim_C1 (config : Config) (only : Bool) (env : Env) (disk : Option Checkpoint)
    (cwd0 : String)
    (h200 : env.listStatus = 200)
    (hmem : listHas env.repositories config.tfs_source_repo = true)
    (hskip : skipCheck (disk.getD []) config.azure_devops_organization
      config.azure_devops_project config.tfs_source_repo = false)
    (hgh : env.ghStatus = 200)
    (hfail : exceptFailed (tryCloneAndPush env (branchSelector config) only
      (azureRepoUrlOf config env) (repoDirOf config cwd0)
      (githubRepoUrlOf config env)).1 = true) :
    (clone_and_push_repositories config only env disk cwd0).result = Except.ok () ∧
    (∃ m, Event.logError m ∈ (clone_and_push_repositories config only env disk cwd0).trace) ∧
    Event.writeLedger config.azure_devops_organization config.azure_devops_project
      config.tfs_source_repo ∈ (clone_and_push_repositories config only env disk cwd0).trace ∧
    skipCheck (((clone_and_push_repositories config only env disk cwd0).disk).getD [])
      config.azure_devops_organization config.azure_devops_project config.tfs_source_repo
      = true := by
  have hrun := run_block config only env disk cwd0 h200 hmem hskip hgh
  rw [hrun]
  rcases htb : (tryCloneAndPush env (branchSelector config) only (azureRepoUrlOf config env)
      (repoDirOf config cwd0) (githubRepoUrlOf config env)).1 with e | u
  · simp only [htb]
    refine ⟨by simp,
      ⟨"An error occurred while processing " ++ config.tfs_source_repo ++ ": " ++ e, ?_⟩,
      ?_, ?_⟩
    · simp
    · simp
    · rw [skipCheck_eq_listHas]
      simpa using save_checkpoint_mem (some (disk.getD [])) _ _ _
  · rw [htb] at hfail
    simp [exceptFailed] at hfail

/-- C1 witness: every subprocess fails, so the clone raises; the run still
reports success, logs the error, writes the checkpoint, and the skip test
succeeds afterwards. -/
theorem claim_C1_witness :
    (clone_and_push_repositories
        ⟨"org", "proj", "pat", "r", "gr", "tfs", "tok", "ghorg", none⟩ false
        ⟨200, ["r"], 200, false, fun _ _ => false, fun s => s⟩ none "w").result
      = Except.ok () ∧
    (∃ m, Event.logError m ∈ (clone_and_push_repositories
        ⟨"org", "proj", "pat", "r", "gr", "tfs", "tok", "ghorg", none⟩ false
        ⟨200, ["r"], 200, false, fun _ _ => false, fun s => s⟩ none "w").trace) ∧
    Event.writeLedger "org" "proj" "r" ∈ (clone_and_push_repositories
        ⟨"org", "proj", "pat", "r", "gr", "tfs", "tok", "ghorg", none⟩ false
        ⟨200, ["r"], 200, false, fun _ _ => false, fun s => s⟩ none "w").trace ∧
    skipCheck (((clone_and_push_repositories
        ⟨"org", "proj", "pat", "r", "gr", "tfs", "tok", "ghorg", none⟩ false
        ⟨200, ["r"], 200, false, fun _ _ => false, fun s => s⟩ none "w").disk).getD [])
      "org" "proj" "r" = true :=
  claim_C1 ⟨"org", "proj", "pat", "r", "gr", "tfs", "tok", "ghorg", none⟩ false
    ⟨200, ["r"], 200, false, fun _ _ => false, fun s => s⟩ none "w"
    rfl (by decide) (by decide) rfl (by decide)

/-- C2: when the ledger already contains the (collection, project, repo)
triple before the run, the run performs no subprocess invocation at all
(in particular no clone and no push), writes nothing to the ledger, and
leaves the persisted ledger unchanged; if the pre-checks pass it returns at
the skip check with an empty trace. -/
theorem claim_C2 (config : Config) (only : Bool) (env : Env) (disk : Option Checkpoint)
    (cwd0 : String)
    (hpre : listHas (reposOf (disk.getD []) config.azure_devops_organization
      config.azure_devops_project) config.tfs_source_repo = true) :
    runCmds (clone_and_push_repositories config only env disk cwd0).trace = [] ∧
    (clone_and_push_repositories config only env disk cwd0).disk = disk ∧
    (∀ e ∈ (clone_and_push_repositories config only env disk cwd0).trace,
      isWriteLedger e = false) ∧
    (env.listStatus = 200 → listHas env.repositories config.tfs_source_repo = true →
      (clone_and_push_repositories config only env disk cwd0).trace = [] ∧
      (clone_and_push_repositories config only env disk cwd0).result = Except.ok ()) := by
  have hskip : skipCheck (disk.getD []) config.azure_devops_organization
      config.azure_devops_project config.tfs_source_repo = true := by
    rw [skipCheck_eq_listHas]
    exact hpre
  have hdisk : some (disk.getD []) = disk := by
    rcases disk with _ | cp
    · exfalso
      simp [reposOf, projectsOf, alGet, listHas] at hpre
    · rfl
  by_cases h200 : env.listStatus = 200
  · by_cases hm : listHas env.repositories config.tfs_source_repo = true
    · rw [run_skip config only env disk cwd0 h200 hm hskip]
      exact ⟨rfl, hdisk, by simp, fun _ _ => ⟨rfl, rfl⟩⟩
    · have hm' : listHas env.repositories config.tfs_source_repo = false := by
        rcases hb : listHas env.repositories config.tfs_source_repo
        · rfl
        · exact absurd hb hm
      rw [run_not_found config only env disk cwd0 h200 hm']
      exact ⟨rfl, rfl, by simp, fun _ hmm => absurd hmm hm⟩
  · rw [run_list_fail config only env disk cwd0 h200]
    exact ⟨rfl, rfl, by simp, fun hh _ => absurd hh h200⟩

/-- C2 witness: a ledger that already records ("org", "proj", "r"). -/
theorem claim_C2_witness :
    runCmds (clone_and_push_repositories
        ⟨"org", "proj", "pat", "r", "gr", "tfs", "tok", "ghorg", none⟩ false
        ⟨200, ["r"], 200, false, fun _ _ => true, fun s => s⟩
        (some [("org", [("proj", ["r"])])]) "w").trace = [] ∧
    (clone_and_push_repositories
        ⟨"org", "proj", "pat", "r", "gr", "tfs", "tok", "ghorg", none⟩ false
        ⟨200, ["r"], 200, false, fun _ _ => true, fun s => s⟩
        (some [("org", [("proj", ["r"])])]) "w").disk
      = some [("org", [("proj", ["r"])])] ∧
    (∀ e ∈ (clone_and_push_repositories
        ⟨"org", "proj", "pat", "r", "gr", "tfs", "tok", "ghorg", none⟩ false
        ⟨200, ["r"], 200, false, fun _ _ => true, fun s => s⟩
        (some [("org", [("proj", ["r"])])]) "w").trace, isWriteLedger e = false) ∧
    ((⟨200, ["r"], 200, false, fun _ _ => true, fun s => s⟩ : Env).listStatus = 200 →
      listHas (⟨200, ["r"], 200, false, fun _ _ => true, fun s => s⟩ : Env).repositories
        (⟨"org", "proj", "pat", "r", "gr", "tfs", "tok", "ghorg", none⟩ : Config).tfs_source_repo
        = true →
      (clone_and_push_repositories
        ⟨"org", "proj", "pat", "r", "gr", "tfs", "tok", "ghorg", none⟩ false
        ⟨200, ["r"], 200, false, fun _ _ => true, fun s => s⟩
        (some [("org", [("proj", ["r"])])]) "w").trace = [] ∧
      (clone_and_push_repositories
        ⟨"org", "proj", "pat", "r", "gr", "tfs", "tok", "ghorg", none⟩ false
        ⟨200, ["r"], 200, false, fun _ _ => true, fun s => s⟩
        (some [("org", [("proj", ["r"])])]) "w").result = Except.ok ()) :=
  claim_C2 ⟨"org", "proj", "pat", "r", "gr", "tfs", "tok", "ghorg", none⟩ false
    ⟨200, ["r"], 200, false, fun _ _ => true, fun s => s⟩
    (some [("org", [("proj", ["r"])])]) "w" (by decide)

/-- C3: a non-200 status on the GitHub existence check means "does not
exist" (not an exception); the orchestrator logs an error and stops with no
subprocess invocation, no ledger write, and the persisted mapping unchanged. -/
theorem claim_C3 (config : Config) (only : Bool) (env : Env) (disk : Option Checkpoint)
    (cwd0 : String)
    (h200 : env.listStatus = 200)
    (hmem : listHas env.repositories config.tfs_source_repo = true)
    (hskip : skipCheck (disk.getD []) config.azure_devops_organization
      config.azure_devops_project config.tfs_source_repo = false)
    (hgh : env.ghStatus ≠ 200) :
    check_github_repo_exists config.github_organization config.github_target_repo
      config.github_token env.ghStatus = false ∧
    (clone_and_push_repositories config only env disk cwd0).result = Except.ok () ∧
    runCmds (clone_and_push_repositories config only env disk cwd0).trace = [] ∧
    (∀ e ∈ (clone_and_push_repositories config only env disk cwd0).trace,
      isWriteLedger e = false) ∧
    ((clone_and_push_repositories config only env disk cwd0).disk).getD [] = disk.getD [] ∧
    (∃ m, Event.logError m ∈ (clone_and_push_repositories config only env disk cwd0).trace) := by
  have hchk : check_github_repo_exists config.github_organization config.github_target_repo
      config.github_token env.ghStatus = false := by
    simp only [check_github_repo_exists]
    exact beq_eq_false_iff_ne.mpr hgh
  rw [run_gh_missing config only env disk cwd0 h200 hmem hskip hgh]
  refine ⟨hchk, rfl, rfl, ?_, by simp,
    ⟨"Repository " ++ config.github_target_repo
      ++ " does not exist on GitHub. Migration cannot proceed.", by simp⟩⟩
  intro e he
  simp at he
  subst he
  rfl

/-- C3 witness: the existence check observes a 404. -/
theorem claim_C3_witness :
    check_github_repo_exists "ghorg" "gr" "tok" 404 = false ∧
    (clone_and_push_repositories
        ⟨"org", "proj", "pat", "r", "gr", "tfs", "tok", "ghorg", none⟩ false
        ⟨200, ["r"], 404, false, fun _ _ => true, fun s => s⟩ none "w").result
      = Except.ok () ∧
    runCmds (clone_and_push_repositories
        ⟨"org", "proj", "pat", "r", "gr", "tfs", "tok", "ghorg", none⟩ false
        ⟨200, ["r"], 404, false, fun _ _ => true, fun s => s⟩ none "w").trace = [] ∧
    (∀ e ∈ (clone_and_push_repositories
        ⟨"org", "proj", "pat", "r", "gr", "tfs", "tok", "ghorg", none⟩ false
        ⟨200, ["r"], 404, false, fun _ _ => true, fun s => s⟩ none "w").trace,
      isWriteLedger e = false) ∧
    ((clone_and_push_repositories
        ⟨"org", "proj", "pat", "r", "gr", "tfs", "tok", "ghorg", none⟩ false
        ⟨200, ["r"], 404, false, fun _ _ => true, fun s => s⟩ none "w").disk).getD []
      = (none : Option Checkpoint).getD [] ∧
    (∃ m, Event.logError m ∈ (clone_and_push_repositories
        ⟨"org", "proj", "pat", "r", "gr", "tfs", "tok", "ghorg", none⟩ false
        ⟨200, ["r"], 404, false, fun _ _ => true, fun s => s⟩ none "w").trace) :=
  claim_C3 ⟨"org", "proj", "pat", "r", "gr", "tfs", "tok", "ghorg", none⟩ false
    ⟨200, ["r"], 404, false, fun _ _ => true, fun s => s⟩ none "w"
    rfl (by decide) (by decide) (by decide)

/-! ### Claim C8 and helpers -/

/-- The clone phase never changes directory. -/
theorem cloneStep_no_chdir (env : Env) (sel : BranchSel) (au rd d : String) :
    Event.chdir d ∉ (cloneStep env sel au rd).2 := by
  intro h
  unfold cloneStep at h
  rcases henv : env.repoDirExists
  · rw [henv] at h
    rcases sel with _ | bs
    · simp only [] at h
      rcases retry_subprocess_events _ _ _ _ h with h' | ⟨t, h'⟩ <;> simp at h'
    · simp only [] at h
      rcases retry_subprocess_events _ _ _ _ h with h' | ⟨t, h'⟩ <;> simp at h'
  · rw [henv] at h
    simp at h

/-- The push phase never changes directory. -/
theorem pushStep_no_chdir (env : Env) (sel : BranchSel) (rd gu d : String) :
    Event.chdir d ∉ (pushStep env sel rd gu).2 := by
  intro h
  unfold pushStep at h
  rcases sel with _ | bs
  · rcases retry_subprocess_events _ _ _ _ h with h' | ⟨t, h'⟩ <;> simp at h'
  · rcases migrate_events _ _ _ _ _ h with ⟨c, h'⟩ | ⟨t, h'⟩ <;> simp at h'

/-- Every command of the clone phase is one of the two clone commands. -/
theorem cloneStep_runCmds (env : Env) (sel : BranchSel) (au rd : String) :
    ∀ x ∈ runCmds (cloneStep env sel au rd).2,
      x = cloneMirrorCmd au rd ∨ x = cloneDefaultCmd au rd := by
  intro x hx
  unfold cloneStep at hx
  rcases henv : env.repoDirExists
  · rw [henv] at hx
    rcases sel with _ | bs
    · exact Or.inl (retry_subprocess_run_eq _ _ _ x hx)
    · exact Or.inr (retry_subprocess_run_eq _ _ _ x hx)
  · rw [henv] at hx
    simp [runCmds] at hx

/-- The trace of a run that reached the block starts with the clone-phase
trace. -/
theorem run_block_trace_head (config : Config) (only : Bool) (env : Env)
    (disk : Option Checkpoint) (cwd0 : String)
    (h200 : env.listStatus = 200)
    (hmem : listHas env.repositories config.tfs_source_repo = true)
    (hskip : skipCheck (disk.getD []) config.azure_devops_organization
      config.azure_devops_project config.tfs_source_repo = false)
    (hgh : env.ghStatus = 200) :
    ∃ t, (clone_and_push_repositories config only env disk cwd0).trace
      = (cloneStep env (branchSelector config) (azureRepoUrlOf config env)
          (repoDirOf config cwd0)).2 ++ t := by
  obtain ⟨t', ht'⟩ := tryCloneAndPush_trace_head env (branchSelector config) only
    (azureRepoUrlOf config env) (repoDirOf config cwd0) (githubRepoUrlOf config env)
  rw [run_block config only env disk cwd0 h200 hmem hskip hgh]
  rcases htb : (tryCloneAndPush env (branchSelector config) only (azureRepoUrlOf config env)
      (repoDirOf config cwd0) (githubRepoUrlOf config env)).1 with e | u
  · refine ⟨t' ++ ([Event.logError ("An error occurred while processing "
        ++ config.tfs_source_repo ++ ": " ++ e)]
        ++ [Event.writeLedger config.azure_devops_organization config.azure_devops_project
              config.tfs_source_repo, Event.chdir (baseDirOf cwd0)]), ?_⟩
    simp only [htb, ht']
    simp
  · refine ⟨t' ++ ([] ++ [Event.writeLedger config.azure_devops_organization
        config.azure_devops_project config.tfs_source_repo,
        Event.chdir (baseDirOf cwd0)]), ?_⟩
    simp only [htb, ht']
    simp

/-- The subprocess commands of a run that reached the block are those of the
`try` block: the caught-error log, the checkpoint write, and the final
`chdir` contribute none. -/
theorem run_block_runCmds (config : Config) (only : Bool) (env : Env)
    (disk : Option Checkpoint) (cwd0 : String)
    (h200 : env.listStatus = 200)
    (hmem : listHas env.repositories config.tfs_source_repo = true)
    (hskip : skipCheck (disk.getD []) config.azure_devops_organization
      config.azure_devops_project config.tfs_source_repo = false)
    (hgh : env.ghStatus = 200) :
    runCmds (clone_and_push_repositories config only env disk cwd0).trace
      = runCmds (tryCloneAndPush env (branchSelector config) only (azureRepoUrlOf config env)
          (repoDirOf config cwd0) (githubRepoUrlOf config env)).2 := by
  rw [run_block config only env disk cwd0 h200 hmem hskip hgh]
  rcases htb : (tryCloneAndPush env (branchSelector config) only (azureRepoUrlOf config env)
      (repoDirOf config cwd0) (githubRepoUrlOf config env)).1 with e | u <;>
    simp only [htb] <;>
    rw [runCmds_append, runCmds_append] <;>
    simp [runCmds]

/-- Every command of the `try` block comes from the clone phase or the push
phase. -/
theorem tryCloneAndPush_runCmds (env : Env) (sel : BranchSel) (only : Bool)
    (au rd gu : String) :
    ∀ x ∈ runCmds (tryCloneAndPush env sel only au rd gu).2,
      x ∈ runCmds (cloneStep env sel au rd).2 ∨ x ∈ runCmds (pushStep env sel rd gu).2 := by
  intro x hx
  rcases hc : (cloneStep env sel au rd).1 with e | u
  · rw [tryCloneAndPush_clone_err env sel only au rd gu e hc] at hx
    exact Or.inl hx
  · cases only
    · simp only [tryCloneAndPush_push env sel au rd gu u hc] at hx
      rw [runCmds_append] at hx
      rcases List.mem_append.mp hx with hx | hx
      · exact Or.inl hx
      · rw [show runCmds (Event.chdir rd :: (pushStep env sel rd gu).2)
            = runCmds (pushStep env sel rd gu).2 from rfl] at hx
        exact Or.inr hx
    · simp only [tryCloneAndPush_clone_only env sel au rd gu u hc] at hx
      exact Or.inl hx

/-- C8: the branch selector defaults to `"all"` when the `specific_branches`
key is absent; when the local clone directory is absent the clone command is
a mirror clone under the `"all"` selector and a plain default-branch clone
otherwise; and when the local clone directory already exists no clone
command is ever invoked. -/
theorem claim_C8 (config : Config) (only : Bool) (env : Env) (disk : Option Checkpoint)
    (cwd0 : String)
    (h200 : env.listStatus = 200)
    (hmem : listHas env.repositories config.tfs_source_repo = true)
    (hskip : skipCheck (disk.getD []) config.azure_devops_organization
      config.azure_devops_project config.tfs_source_repo = false)
    (hgh : env.ghStatus = 200) :
    (config.specific_branches = none → branchSelector config = BranchSel.all) ∧
    (env.repoDirExists = false → branchSelector config = BranchSel.all →
      ∃ t, (clone_and_push_repositories config only env disk cwd0).trace
        = (retry_subprocess (cloneMirrorCmd (azureRepoUrlOf config env) (repoDirOf config cwd0))
            (env.behav (cloneMirrorCmd (azureRepoUrlOf config env)
              (repoDirOf config cwd0)))).2 ++ t) ∧
    (env.repoDirExists = false → ∀ bs, branchSelector config = BranchSel.branches bs →
      ∃ t, (clone_and_push_repositories config only env disk cwd0).trace
        = (retry_subprocess (cloneDefaultCmd (azureRepoUrlOf config env) (repoDirOf config cwd0))
            (env.behav (cloneDefaultCmd (azureRepoUrlOf config env)
              (repoDirOf config cwd0)))).2 ++ t) ∧
    (env.repoDirExists = true →
      ∀ x ∈ runCmds (clone_and_push_repositories config only env disk cwd0).trace,
        x[1]? ≠ some "clone") := by
  refine ⟨fun hnone => by simp [branchSelector, hnone], ?_, ?_, ?_⟩
  · intro hdir hsel
    obtain ⟨t, ht⟩ := run_block_trace_head config only env disk cwd0 h200 hmem hskip hgh
    rw [ht]
    have hcs : cloneStep env (branchSelector config) (azureRepoUrlOf config env)
        (repoDirOf config cwd0)
        = retry_subprocess (cloneMirrorCmd (azureRepoUrlOf config env) (repoDirOf config cwd0))
            (env.behav (cloneMirrorCmd (azureRepoUrlOf config env) (repoDirOf config cwd0))) := by
      simp [cloneStep, hdir, hsel]
    rw [hcs]
    exact ⟨t, rfl⟩
  · intro hdir bs hsel
    obtain ⟨t, ht⟩ := run_block_trace_head config only env disk cwd0 h200 hmem hskip hgh
    rw [ht]
    have hcs : cloneStep env (branchSelector config) (azureRepoUrlOf config env)
        (repoDirOf config cwd0)
        = retry_subprocess (cloneDefaultCmd (azureRepoUrlOf config env) (repoDirOf config cwd0))
            (env.behav (cloneDefaultCmd (azureRepoUrlOf config env) (repoDirOf config cwd0))) := by
      simp [cloneStep, hdir, hsel]
    rw [hcs]
    exact ⟨t, rfl⟩
  · intro hdir x hx
    rw [run_block_runCmds config only env disk cwd0 h200 hmem hskip hgh] at hx
    rcases tryCloneAndPush_runCmds env (branchSelector config) only (azureRepoUrlOf config env)
        (repoDirOf config cwd0) (githubRepoUrlOf config env) x hx with hx' | hx'
    · exfalso
      have hcs : cloneStep env (branchSelector config) (azureRepoUrlOf config env)
          (repoDirOf config cwd0) = (Except.ok (), []) := by
        simp [cloneStep, hdir]
      rw [hcs] at hx'
      simp [runCmds] at hx'
    · rcases hsel : branchSelector config with _ | bs
      · rw [hsel] at hx'
        rw [show pushStep env BranchSel.all (repoDirOf config cwd0) (githubRepoUrlOf config env)
            = retry_subprocess (pushMirrorCmd (githubRepoUrlOf config env))
                (env.behav (pushMirrorCmd (githubRepoUrlOf config env))) from rfl] at hx'
        have hxeq := retry_subprocess_run_eq _ _ _ x hx'
        subst hxeq
        simp [pushMirrorCmd]
      · rw [hsel] at hx'
        rw [show pushStep env (BranchSel.branches bs) (repoDirOf config cwd0)
              (githubRepoUrlOf config env)
            = migrate_specific_branches (repoDirOf config cwd0) (githubRepoUrlOf config env) bs
                env.behav from rfl] at hx'
        rcases migrate_run_shape _ _ _ _ x hx' with ⟨b, hb⟩ | ⟨b, hb⟩ <;> subst hb <;>
          simp [fetchCmd, pushBranchCmd]

/-- C8 witness: a configuration without `specific_branches`, an absent clone
directory, and an existing clone directory. -/
theorem claim_C8_witness :
    ((⟨"org", "proj", "pat", "r", "gr", "tfs", "tok", "ghorg", none⟩ : Config).specific_branches
        = none →
      branchSelector ⟨"org", "proj", "pat", "r", "gr", "tfs", "tok", "ghorg", none⟩
        = BranchSel.all) ∧
    ((⟨200, ["r"], 200, false, fun _ _ => true, fun s => s⟩ : Env).repoDirExists = false →
      branchSelector ⟨"org", "proj", "pat", "r", "gr", "tfs", "tok", "ghorg", none⟩
          = BranchSel.all →
      ∃ t, (clone_and_push_repositories
          ⟨"org", "proj", "pat", "r", "gr", "tfs", "tok", "ghorg", none⟩ true
          ⟨200, ["r"], 200, false, fun _ _ => true, fun s => s⟩ none "w").trace
        = (retry_subprocess
            (cloneMirrorCmd
              (azureRepoUrlOf ⟨"org", "proj", "pat", "r", "gr", "tfs", "tok", "ghorg", none⟩
                ⟨200, ["r"], 200, false, fun _ _ => true, fun s => s⟩)
              (repoDirOf ⟨"org", "proj", "pat", "r", "gr", "tfs", "tok", "ghorg", none⟩ "w"))
            ((⟨200, ["r"], 200, false, fun _ _ => true, fun s => s⟩ : Env).behav
              (cloneMirrorCmd
                (azureRepoUrlOf ⟨"org", "proj", "pat", "r", "gr", "tfs", "tok", "ghorg", none⟩
                  ⟨200, ["r"], 200, false, fun _ _ => true, fun s => s⟩)
                (repoDirOf ⟨"org", "proj", "pat", "r", "gr", "tfs", "tok", "ghorg", none⟩
                  "w")))).2 ++ t) ∧
    ((⟨200, ["r"], 200, false, fun _ _ => true, fun s => s⟩ : Env).repoDirExists = false →
      ∀ bs, branchSelector ⟨"org", "proj", "pat", "r", "gr", "tfs", "tok", "ghorg", none⟩
          = BranchSel.branches bs →
      ∃ t, (clone_and_push_repositories
          ⟨"org", "proj", "pat", "r", "gr", "tfs", "tok", "ghorg", none⟩ true
          ⟨200, ["r"], 200, false, fun _ _ => true, fun s => s⟩ none "w").trace
        = (retry_subprocess
            (cloneDefaultCmd
              (azureRepoUrlOf ⟨"org", "proj", "pat", "r", "gr", "tfs", "tok", "ghorg", none⟩
                ⟨200, ["r"], 200, false, fun _ _ => true, fun s => s⟩)
              (repoDirOf ⟨"org", "proj", "pat", "r", "gr", "tfs", "tok", "ghorg", none⟩ "w"))
            ((⟨200, ["r"], 200, false, fun _ _ => true, fun s => s⟩ : Env).behav
              (cloneDefaultCmd
                (azureRepoUrlOf ⟨"org", "proj", "pat", "r", "gr", "tfs", "tok", "ghorg", none⟩
                  ⟨200, ["r"], 200, false, fun _ _ => true, fun s => s⟩)
                (repoDirOf ⟨"org", "proj", "pat", "r", "gr", "tfs", "tok", "ghorg", none⟩
                  "w")))).2 ++ t) ∧
    ((⟨200, ["r"], 200, false, fun _ _ => true, fun s => s⟩ : Env).repoDirExists = true →
      ∀ x ∈ runCmds (clone_and_push_repositories
          ⟨"org", "proj", "pat", "r", "gr", "tfs", "tok", "ghorg", none⟩ true
          ⟨200, ["r"], 200, false, fun _ _ => true, fun s => s⟩ none "w").trace,
        x[1]? ≠ some "clone") :=
  claim_C8 ⟨"org", "proj", "pat", "r", "gr", "tfs", "tok", "ghorg", none⟩ true
    ⟨200, ["r"], 200, false, fun _ _ => true, fun s => s⟩ none "w"
    rfl (by decide) (by decide) rfl

/-! ### Claim C9 and helpers -/

/-- Any `chdir` inside the `try` block targets the clone directory, and that
happens only in clone-and-push mode with a successful clone phase. -/
theorem tryCloneAndPush_chdir (env : Env) (sel : BranchSel) (only : Bool) (au rd gu d : String)
    (h : Event.chdir d ∈ (tryCloneAndPush env sel only au rd gu).2) :
    d = rd ∧ only = false ∧ exceptFailed (cloneStep env sel au rd).1 = false := by
  rcases hc : (cloneStep env sel au rd).1 with e | u
  · rw [tryCloneAndPush_clone_err env sel only au rd gu e hc] at h
    exact absurd h (cloneStep_no_chdir env sel au rd d)
  · cases only
    · simp only [tryCloneAndPush_push env sel au rd gu u hc] at h
      refine ⟨?_, rfl, by simp [exceptFailed, hc]⟩
      rcases List.mem_append.mp h with h | h
      · exact absurd h (cloneStep_no_chdir env sel au rd d)
      · rcases List.mem_cons.mp h with h | h
        · exact (Event.chdir.injEq d rd).mp h
        · exact absurd h (pushStep_no_chdir env sel rd gu d)
    · simp only [tryCloneAndPush_clone_only env sel au rd gu u hc] at h
      exact absurd h (cloneStep_no_chdir env sel au rd d)

/-- The clone directory path is strictly longer than the base directory
path, so the two are distinct. -/
theorem repoDirOf_ne_baseDirOf (config : Config) (cwd0 : String) :
    repoDirOf config cwd0 ≠ baseDirOf cwd0 := by
  intro h
  have hlen := congrArg String.length h
  simp only [repoDirOf, projectDirOf, repoBaseDirOf, baseDirOf, pjoin,
    String.length_append] at hlen
  have h1 : ("/" : String).length = 1 := rfl
  rw [h1] at hlen
  omega

/-- C9: the working directory is changed to the clone directory only when
the push phase is entered; on every exit path of the clone/push block it
ends at the base migration directory; and on the paths that stop before the
block the working directory is never changed at all. -/
theorem claim_C9 (config : Config) (only : Bool) (env : Env) (disk : Option Checkpoint)
    (cwd0 : String) :
    (∀ d, Event.chdir d ∈ (clone_and_push_repositories config only env disk cwd0).trace →
      d = repoDirOf config cwd0 ∨ d = baseDirOf cwd0) ∧
    (env.listStatus = 200 → listHas env.repositories config.tfs_source_repo = true →
     skipCheck (disk.getD []) config.azure_devops_organization config.azure_devops_project
       config.tfs_source_repo = false → env.ghStatus = 200 →
      (clone_and_push_repositories config only env disk cwd0).cwd = baseDirOf cwd0 ∧
      Event.chdir (baseDirOf cwd0)
        ∈ (clone_and_push_repositories config only env disk cwd0).trace ∧
      (only = true → Event.chdir (repoDirOf config cwd0)
        ∉ (clone_and_push_repositories config only env disk cwd0).trace) ∧
      (Event.chdir (repoDirOf config cwd0)
          ∈ (clone_and_push_repositories config only env disk cwd0).trace →
        only = false ∧ exceptFailed (cloneStep env (branchSelector config)
          (azureRepoUrlOf config env) (repoDirOf config cwd0)).1 = false)) ∧
    (env.listStatus ≠ 200 ∨ listHas env.repositories config.tfs_source_repo = false ∨
     skipCheck (disk.getD []) config.azure_devops_organization config.azure_devops_project
       config.tfs_source_repo = true ∨ env.ghStatus ≠ 200 →
      (clone_and_push_repositories config only env disk cwd0).cwd = cwd0 ∧
      ∀ d, Event.chdir d ∉ (clone_and_push_repositories config only env disk cwd0).trace) := by
  by_cases h200 : env.listStatus = 200
  case neg =>
    rw [run_list_fail config only env disk cwd0 h200]
    exact ⟨fun d hd => by simp at hd, fun hh => absurd hh h200,
      fun _ => ⟨rfl, fun d hd => by simp at hd⟩⟩
  by_cases hmem : listHas env.repositories config.tfs_source_repo = true
  case neg =>
    have hmem' : listHas env.repositories config.tfs_source_repo = false := by
      rcases hb : listHas env.repositories config.tfs_source_repo
      · rfl
      · exact absurd hb hmem
    rw [run_not_found config only env disk cwd0 h200 hmem']
    exact ⟨fun d hd => by simp at hd, fun _ hh => absurd hh hmem,
      fun _ => ⟨rfl, fun d hd => by simp at hd⟩⟩
  by_cases hskip : skipCheck (disk.getD []) config.azure_devops_organization
      config.azure_devops_project config.tfs_source_repo = true
  case pos =>
    rw [run_skip config only env disk cwd0 h200 hmem hskip]
    exact ⟨fun d hd => by simp at hd,
      fun _ _ hh _ => absurd hskip (by simp [hh]),
      fun _ => ⟨rfl, fun d hd => by simp at hd⟩⟩
  have hskip' : skipCheck (disk.getD []) config.azure_devops_organization
      config.azure_devops_project config.tfs_source_repo = false := by
    rcases hb : skipCheck (disk.getD []) config.azure_devops_organization
        config.azure_devops_project config.tfs_source_repo
    · rfl
    · exact absurd hb hskip
  by_cases hgh : env.ghStatus = 200
  case neg =>
    rw [run_gh_missing config only env disk cwd0 h200 hmem hskip' hgh]
    exact ⟨fun d hd => by simp at hd, fun _ _ _ hh => absurd hh hgh,
      fun _ => ⟨rfl, fun d hd => by simp at hd⟩⟩
  -- the block path
  have hrun := run_block config only env disk cwd0 h200 hmem hskip' hgh
  have hblockmem : ∀ d, Event.chdir d
      ∈ (clone_and_push_repositories config only env disk cwd0).trace →
      Event.chdir d ∈ (tryCloneAndPush env (branchSelector config) only
        (azureRepoUrlOf config env) (repoDirOf config cwd0)
        (githubRepoUrlOf config env)).2 ∨ d = baseDirOf cwd0 := by
    intro d hd
    rw [hrun] at hd
    rcases List.mem_append.mp hd with hd | hd
    · rcases List.mem_append.mp hd with hd | hd
      · exact Or.inl hd
      · exfalso
        rcases htb : (tryCloneAndPush env (branchSelector config) only
            (azureRepoUrlOf config env) (repoDirOf config cwd0)
            (githubRepoUrlOf config env)).1 with e | u <;>
          simp only [htb] at hd <;> simp at hd
    · rcases List.mem_cons.mp hd with hd | hd
      · exact absurd hd (by simp)
      · rcases List.mem_cons.mp hd with hd | hd
        · exact Or.inr (by simpa using hd)
        · exact absurd hd (by simp)
  have htrace : ∀ d, Event.chdir d
      ∈ (clone_and_push_repositories config only env disk cwd0).trace →
      d = repoDirOf config cwd0 ∨ d = baseDirOf cwd0 := by
    intro d hd
    rcases hblockmem d hd with hd' | hd'
    · exact Or.inl (tryCloneAndPush_chdir env (branchSelector config) only
        (azureRepoUrlOf config env) (repoDirOf config cwd0) (githubRepoUrlOf config env)
        d hd').1
    · exact Or.inr hd'
  refine ⟨htrace, fun _ _ _ _ => ⟨by rw [hrun], ?_, ?_, ?_⟩, ?_⟩
  · rw [hrun]
    rcases htb : (tryCloneAndPush env (branchSelector config) only (azureRepoUrlOf config env)
        (repoDirOf config cwd0) (githubRepoUrlOf config env)).1 with e | u <;>
      simp [htb]
  · intro honly hd
    rcases hblockmem _ hd with hd' | hd'
    · have := (tryCloneAndPush_chdir env (branchSelector config) only
        (azureRepoUrlOf config env) (repoDirOf config cwd0) (githubRepoUrlOf config env)
        _ hd').2.1
      rw [honly] at this
      exact Bool.true_eq_false.mp this
    · exact repoDirOf_ne_baseDirOf config cwd0 hd'
  · intro hd
    rcases hblockmem _ hd with hd' | hd'
    · exact ⟨(tryCloneAndPush_chdir env (branchSelector config) only
          (azureRepoUrlOf config env) (repoDirOf config cwd0) (githubRepoUrlOf config env)
          _ hd').2.1,
        (tryCloneAndPush_chdir env (branchSelector config) only
          (azureRepoUrlOf config env) (repoDirOf config cwd0) (githubRepoUrlOf config env)
          _ hd').2.2⟩
    · exact absurd hd' (repoDirOf_ne_baseDirOf config cwd0)
  · intro hor
    rcases hor with hh | hh | hh | hh
    · exact absurd h200 hh
    · rw [hmem] at hh
      exact absurd hh (by simp)
    · rw [hskip'] at hh
      exact absurd hh (by simp)
    · exact absurd hgh hh

/-- C9 witness: a clone-and-push run with an existing local clone and
successful pushes; the trace chdirs to the clone directory and back, the
final working directory is the base directory, and an early-stopping run
(missing GitHub target) leaves the directory untouched. -/
theorem claim_C9_witness :
    (∀ d, Event.chdir d ∈ (clone_and_push_repositories
        ⟨"org", "proj", "pat", "r", "gr", "tfs", "tok", "ghorg", none⟩ false
        ⟨200, ["r"], 200, true, fun _ _ => true, fun s => s⟩ none "w").trace →
      d = repoDirOf ⟨"org", "proj", "pat", "r", "gr", "tfs", "tok", "ghorg", none⟩ "w"
        ∨ d = baseDirOf "w") ∧
    ((⟨200, ["r"], 200, true, fun _ _ => true, fun s => s⟩ : Env).listStatus = 200 →
     listHas (⟨200, ["r"], 200, true, fun _ _ => true, fun s => s⟩ : Env).repositories
       (⟨"org", "proj", "pat", "r", "gr", "tfs", "tok", "ghorg", none⟩ : Config).tfs_source_repo
       = true →
     skipCheck ((none : Option Checkpoint).getD []) "org" "proj" "r" = false →
     (⟨200, ["r"], 200, true, fun _ _ => true, fun s => s⟩ : Env).ghStatus = 200 →
      (clone_and_push_repositories
        ⟨"org", "proj", "pat", "r", "gr", "tfs", "tok", "ghorg", none⟩ false
        ⟨200, ["r"], 200, true, fun _ _ => true, fun s => s⟩ none "w").cwd = baseDirOf "w" ∧
      Event.chdir (baseDirOf "w") ∈ (clone_and_push_repositories
        ⟨"org", "proj", "pat", "r", "gr", "tfs", "tok", "ghorg", none⟩ false
        ⟨200, ["r"], 200, true, fun _ _ => true, fun s => s⟩ none "w").trace ∧
      (false = true → Event.chdir (repoDirOf
          ⟨"org", "proj", "pat", "r", "gr", "tfs", "tok", "ghorg", none⟩ "w")
        ∉ (clone_and_push_repositories
          ⟨"org", "proj", "pat", "r", "gr", "tfs", "tok", "ghorg", none⟩ false
          ⟨200, ["r"], 200, true, fun _ _ => true, fun s => s⟩ none "w").trace) ∧
      (Event.chdir (repoDirOf ⟨"org", "proj", "pat", "r", "gr", "tfs", "tok", "ghorg", none⟩ "w")
          ∈ (clone_and_push_repositories
            ⟨"org", "proj", "pat", "r", "gr", "tfs", "tok", "ghorg", none⟩ false
            ⟨200, ["r"], 200, true, fun _ _ => true, fun s => s⟩ none "w").trace →
        false = false ∧ exceptFailed (cloneStep
          ⟨200, ["r"], 200, true, fun _ _ => true, fun s => s⟩
          (branchSelector ⟨"org", "proj", "pat", "r", "gr", "tfs", "tok", "ghorg", none⟩)
          (azureRepoUrlOf ⟨"org", "proj", "pat", "r", "gr", "tfs", "tok", "ghorg", none⟩
            ⟨200, ["r"], 200, true, fun _ _ => true, fun s => s⟩)
          (repoDirOf ⟨"org", "proj", "pat", "r", "gr", "tfs", "tok", "ghorg", none⟩ "w")).1
          = false)) ∧
    ((⟨200, ["r"], 200, true, fun _ _ => true, fun s => s⟩ : Env).listStatus ≠ 200 ∨
     listHas (⟨200, ["r"], 200, true, fun _ _ => true, fun s => s⟩ : Env).repositories
       (⟨"org", "proj", "pat", "r", "gr", "tfs", "tok", "ghorg", none⟩ : Config).tfs_source_repo
       = false ∨
     skipCheck ((none : Option Checkpoint).getD []) "org" "proj" "r" = true ∨
     (⟨200, ["r"], 200, true, fun _ _ => true, fun s => s⟩ : Env).ghStatus ≠ 200 →
      (clone_and_push_repositories
        ⟨"org", "proj", "pat", "r", "gr", "tfs", "tok", "ghorg", none⟩ false
        ⟨200, ["r"], 200, true, fun _ _ => true, fun s => s⟩ none "w").cwd = "w" ∧
      ∀ d, Event.chdir d ∉ (clone_and_push_repositories
        ⟨"org", "proj", "pat", "r", "gr", "tfs", "tok", "ghorg", none⟩ false
        ⟨200, ["r"], 200, true, fun _ _ => true, fun s => s⟩ none "w").trace) :=
  claim_C9 ⟨"org", "proj", "pat", "r", "gr", "tfs", "tok", "ghorg", none⟩ false
    ⟨200, ["r"], 200, true, fun _ _ => true, fun s => s⟩ none "w"

/-! ### Claim C10 -/

/-- C10: a clone-only run that reaches the block and clones successfully
still records the triple in the checkpoint although no push command was ever
invoked; consequently the skip test succeeds on the resulting ledger, and
any subsequent run — with or without the clone-only flag — returns at the
skip check with no subprocess invocation, so the repository is never
pushed. -/
theorem claim_C10 (config : Config) (env env2 : Env) (disk : Option Checkpoint)
    (cwd0 cwd2 : String) (only2 : Bool)
    (h200 : env.listStatus = 200)
    (hmem : listHas env.repositories config.tfs_source_repo = true)
    (hskip : skipCheck (disk.getD []) config.azure_devops_organization
      config.azure_devops_project config.tfs_source_repo = false)
    (hgh : env.ghStatus = 200)
    (hclone : exceptFailed (cloneStep env (branchSelector config)
      (azureRepoUrlOf config env) (repoDirOf config cwd0)).1 = false)
    (h200b : env2.listStatus = 200)
    (hmem2 : listHas env2.repositories config.tfs_source_repo = true) :
    (clone_and_push_repositories config true env disk cwd0).result = Except.ok () ∧
    (∀ x ∈ runCmds (clone_and_push_repositories config true env disk cwd0).trace,
      x[1]? ≠ some "push") ∧
    Event.writeLedger config.azure_devops_organization config.azure_devops_project
      config.tfs_source_repo ∈ (clone_and_push_repositories config true env disk cwd0).trace ∧
    skipCheck (((clone_and_push_repositories config true env disk cwd0).disk).getD [])
      config.azure_devops_organization config.azure_devops_project config.tfs_source_repo
      = true ∧
    (clone_and_push_repositories config only2 env2
      (clone_and_push_repositories config true env disk cwd0).disk cwd2).trace = [] ∧
    runCmds (clone_and_push_repositories config only2 env2
      (clone_and_push_repositories config true env disk cwd0).disk cwd2).trace = [] ∧
    (clone_and_push_repositories config only2 env2
      (clone_and_push_repositories config true env disk cwd0).disk cwd2).disk
      = (clone_and_push_repositories config true env disk cwd0).disk ∧
    (clone_and_push_repositories config only2 env2
      (clone_and_push_repositories config true env disk cwd0).disk cwd2).result
      = Except.ok () := by
  have hrun := run_block config true env disk cwd0 h200 hmem hskip hgh
  have hdisk1 : (clone_and_push_repositories config true env disk cwd0).disk
      = some ((save_checkpoint (some (disk.getD [])) config.azure_devops_organization
          config.azure_devops_project config.tfs_source_repo).1) := by
    rw [hrun]
  have hskip2 : skipCheck (((clone_and_push_repositories config true env disk cwd0).disk).getD [])
      config.azure_devops_organization config.azure_devops_project config.tfs_source_repo
      = true := by
    rw [hdisk1, skipCheck_eq_listHas]
    simpa using save_checkpoint_mem (some (disk.getD [])) _ _ _
  have hrun2 := run_skip config only2 env2
    (clone_and_push_repositories config true env disk cwd0).disk cwd2 h200b hmem2 hskip2
  refine ⟨by rw [hrun], ?_, by rw [hrun]; simp, hskip2,
    by rw [hrun2], by rw [hrun2]; rfl, by rw [hrun2, hdisk1]; simp, by rw [hrun2]⟩
  intro x hx
  rw [run_block_runCmds config true env disk cwd0 h200 hmem hskip hgh] at hx
  rcases hc : (cloneStep env (branchSelector config) (azureRepoUrlOf config env)
      (repoDirOf config cwd0)).1 with e | u
  · rw [hc] at hclone
    simp [exceptFailed] at hclone
  · simp only [tryCloneAndPush_clone_only env (branchSelector config)
      (azureRepoUrlOf config env) (repoDirOf config cwd0) (githubRepoUrlOf config env)
      u hc] at hx
    rcases cloneStep_runCmds env (branchSelector config) (azureRepoUrlOf config env)
        (repoDirOf config cwd0) x hx with hx' | hx' <;> subst hx' <;>
      simp [cloneMirrorCmd, cloneDefaultCmd]

/-- C10 witness: clone-only run with an already-present local clone (the
clone phase trivially succeeds); the checkpoint is written anyway and a
later full run is skipped. -/
theorem claim_C10_witness :
    (clone_and_push_repositories
        ⟨"org", "proj", "pat", "r", "gr", "tfs", "tok", "ghorg", none⟩ true
        ⟨200, ["r"], 200, true, fun _ _ => false, fun s => s⟩ none "w").result
      = Except.ok () ∧
    (∀ x ∈ runCmds (clone_and_push_repositories
        ⟨"org", "proj", "pat", "r", "gr", "tfs", "tok", "ghorg", none⟩ true
        ⟨200, ["r"], 200, true, fun _ _ => false, fun s => s⟩ none "w").trace,
      x[1]? ≠ some "push") ∧
    Event.writeLedger "org" "proj" "r" ∈ (clone_and_push_repositories
        ⟨"org", "proj", "pat", "r", "gr", "tfs", "tok", "ghorg", none⟩ true
        ⟨200, ["r"], 200, true, fun _ _ => false, fun s => s⟩ none "w").trace ∧
    skipCheck (((clone_and_push_repositories
        ⟨"org", "proj", "pat", "r", "gr", "tfs", "tok", "ghorg", none⟩ true
        ⟨200, ["r"], 200, true, fun _ _ => false, fun s => s⟩ none "w").disk).getD [])
      "org" "proj" "r" = true ∧
    (clone_and_push_repositories
        ⟨"org", "proj", "pat", "r", "gr", "tfs", "tok", "ghorg", none⟩ false
        ⟨200, ["r"], 200, true, fun _ _ => false, fun s => s⟩
        (clone_and_push_repositories
          ⟨"org", "proj", "pat", "r", "gr", "tfs", "tok", "ghorg", none⟩ true
          ⟨200, ["r"], 200, true, fun _ _ => false, fun s => s⟩ none "w").disk "w2").trace
      = [] ∧
    runCmds (clone_and_push_repositories
        ⟨"org", "proj", "pat", "r", "gr", "tfs", "tok", "ghorg", none⟩ false
        ⟨200, ["r"], 200, true, fun _ _ => false, fun s => s⟩
        (clone_and_push_repositories
          ⟨"org", "proj", "pat", "r", "gr", "tfs", "tok", "ghorg", none⟩ true
          ⟨200, ["r"], 200, true, fun _ _ => false, fun s => s⟩ none "w").disk "w2").trace
      = [] ∧
    (clone_and_push_repositories
        ⟨"org", "proj", "pat", "r", "gr", "tfs", "tok", "ghorg", none⟩ false
        ⟨200, ["r"], 200, true, fun _ _ => false, fun s => s⟩
        (clone_and_push_repositories
          ⟨"org", "proj", "pat", "r", "gr", "tfs", "tok", "ghorg", none⟩ true
          ⟨200, ["r"], 200, true, fun _ _ => false, fun s => s⟩ none "w").disk "w2").disk
      = (clone_and_push_repositories
          ⟨"org", "proj", "pat", "r", "gr", "tfs", "tok", "ghorg", none⟩ true
          ⟨200, ["r"], 200, true, fun _ _ => false, fun s => s⟩ none "w").disk ∧
    (clone_and_push_repositories
        ⟨"org", "proj", "pat", "r", "gr", "tfs", "tok", "ghorg", none⟩ false
        ⟨200, ["r"], 200, true, fun _ _ => false, fun s => s⟩
        (clone_and_push_repositories
          ⟨"org", "proj", "pat", "r", "gr", "tfs", "tok", "ghorg", none⟩ true
          ⟨200, ["r"], 200, true, fun _ _ => false, fun s => s⟩ none "w").disk "w2").result
      = Except.ok () :=
  claim_C10 ⟨"org", "proj", "pat", "r", "gr", "tfs", "tok", "ghorg", none⟩
    ⟨200, ["r"], 200, true, fun _ _ => false, fun s => s⟩
    ⟨200, ["r"], 200, true, fun _ _ => false, fun s => s⟩ none "w" "w2" false
    rfl (by decide) (by decide) rfl rfl rfl (by decide)

end CloneAndPush
